import Mathlib

/-!
# Verification of the Canon Protocol documentation generator

A shallow embedding, in Lean 4, of the specification-processing pipeline of the
`canon-protocol/website` repository (`scripts/process-specs.js`,
`scripts/spec-to-markdown.js`), together with theorems settling the claims about
its behaviour.

Modelling conventions:
* JavaScript strings are Lean `String`s; `String.prototype.localeCompare` is
  modelled as code-point lexicographic comparison returning `-1`, `0` or `1`
  (only the sign of the JS result is ever used by the code).
* JavaScript numbers occurring here are integer-valued (versions parsed with
  `parseInt`, explicit `page_order` fields, schema bounds), so they are
  modelled as `Nat`/`Int`.
* JavaScript objects whose keys are enumerated are modelled as association
  lists in insertion order; `undefined`/missing data is `Option.none`.
* `Array.prototype.sort` (stable in Node) with comparator `c` is modelled as
  `List.insertionSort (fun a b => c a b ≤ 0)`, a stable sort placing `a`
  before `b` whenever `c a b ≤ 0`.
-/

namespace CanonSite

/-! ## String primitives -/

/-- Code-point lexicographic comparison of character lists; the model of the
sign of `String.prototype.localeCompare`. -/
def lexCmp : List Char → List Char → Int
  | [], [] => 0
  | [], _ :: _ => -1
  | _ :: _, [] => 1
  | a :: as, b :: bs => if a < b then -1 else if b < a then 1 else lexCmp as bs

/-- `a.localeCompare(b)` (sign only, code-point order). -/
def localeCompare (a b : String) : Int := lexCmp a.data b.data

/-- `haystack.includes(needle)` for JS strings: substring containment test. -/
def listIsInfixB (needle : List Char) : List Char → Bool
  | [] => needle.isEmpty
  | c :: rest => needle.isPrefixOf (c :: rest) || listIsInfixB needle rest

/-- `s.includes(sub)`. -/
def strIncludes (s sub : String) : Bool := listIsInfixB sub.data s.data

/-- `s.startsWith(pfx)`. -/
def strStartsWith (s pfx : String) : Bool := pfx.data.isPrefixOf s.data

/-- `s.endsWith(suffix)`. -/
def strEndsWith (s suf : String) : Bool := suf.data.isSuffixOf s.data

/-! ## Version parsing (`process-specs.js`)

The regular expression `^(\d+)\.(\d+)\.(\d+)(?:-(.+))?$` shared by
`compareVersions` and `isStableVersion` is embedded as a deterministic parser:
three greedy digit groups separated by dots (`parseCore`), and then the
anchored tail (nothing, or a dash followed by a non-empty prerelease). -/

/-- Consume `\d+\.\d+\.\d+` from the front: the three digit groups and the
unconsumed remainder. -/
def parseCore (cs : List Char) : Option (List Char × List Char × List Char × List Char) :=
  if (cs.takeWhile (·.isDigit)).isEmpty then none else
  match cs.dropWhile (·.isDigit) with
  | '.' :: r2 =>
    if (r2.takeWhile (·.isDigit)).isEmpty then none else
    match r2.dropWhile (·.isDigit) with
    | '.' :: r4 =>
      if (r4.takeWhile (·.isDigit)).isEmpty then none
      else some (cs.takeWhile (·.isDigit), r2.takeWhile (·.isDigit),
        r4.takeWhile (·.isDigit), r4.dropWhile (·.isDigit))
    | _ => none
  | _ => none

/-- The capture groups of `^(\d+)\.(\d+)\.(\d+)(?:-(.+))?$`. -/
structure SemverM where
  majorDigits : List Char
  minorDigits : List Char
  patchDigits : List Char
  pre : Option (List Char)
deriving DecidableEq, Repr

/-- `v.match(/^(\d+)\.(\d+)\.(\d+)(?:-(.+))?$/)`. -/
def matchSemver (v : String) : Option SemverM :=
  match parseCore v.data with
  | none => none
  | some (d1, d2, d3, rest) =>
    match rest with
    | [] => some ⟨d1, d2, d3, none⟩
    | c :: t => if c = '-' ∧ t ≠ [] then some ⟨d1, d2, d3, some t⟩ else none

/-- `parseInt` on a string of decimal digits. -/
def digitsToNat (ds : List Char) : Nat := ds.foldl (fun n c => n * 10 + (c.toNat - 48)) 0

/-- The parsed-version record produced by `parseVersion` inside
`compareVersions`. -/
structure PV where
  major : Nat
  minor : Nat
  patch : Nat
  prerelease : String
deriving DecidableEq, Repr

/-- `parseVersion` (the local helper of `compareVersions`): an unparseable
string becomes `{major: 0, minor: 0, patch: 0, prerelease: v}`, and a missing
prerelease group becomes `''`. -/
def parseVersion (v : String) : PV :=
  match matchSemver v with
  | none => ⟨0, 0, 0, v⟩
  | some m =>
    ⟨digitsToNat m.majorDigits, digitsToNat m.minorDigits, digitsToNat m.patchDigits,
      match m.pre with | some t => String.mk t | none => ""⟩

/-- The comparison of two already-parsed versions: the body of
`compareVersions` after the two `parseVersion` calls.  JS truthiness of
`prerelease` is emptiness of the string. -/
def cmpPV (va vb : PV) : Int :=
  if va.major ≠ vb.major then (vb.major : Int) - (va.major : Int)
  else if va.minor ≠ vb.minor then (vb.minor : Int) - (va.minor : Int)
  else if va.patch ≠ vb.patch then (vb.patch : Int) - (va.patch : Int)
  else if va.prerelease ≠ "" ∧ vb.prerelease = "" then 1
  else if va.prerelease = "" ∧ vb.prerelease ≠ "" then -1
  else if va.prerelease ≠ "" ∧ vb.prerelease ≠ "" then localeCompare va.prerelease vb.prerelease
  else 0

/-- `compareVersions` (process-specs.js:12). -/
def compareVersions (a b : String) : Int := cmpPV (parseVersion a) (parseVersion b)

/-- `isStableVersion` (process-specs.js:42): parses, `major > 0`, and no
prerelease group. -/
def isStableVersion (version : String) : Bool :=
  match matchSemver version with
  | none => false
  | some m => decide (0 < digitsToNat m.majorDigits) && m.pre.isNone

/-! ## The sort relation induced by `compareVersions` -/

/-- `a` sorts no later than `b` under the `compareVersions` comparator. -/
def verLE (a b : String) : Prop := compareVersions a b ≤ 0

instance : DecidableRel verLE := fun a b => inferInstanceAs (Decidable (compareVersions a b ≤ 0))

/-- `versions.sort(compareVersions)` (stable). -/
def sortVersions (l : List String) : List String := List.insertionSort verLE l

/-- The spec's §4.2 descending order on parsed versions, stated declaratively:
newer numerics first; at equal numerics a stable version precedes any
prerelease; two prereleases are ordered lexicographically by tag. -/
def NewerThan (x y : PV) : Prop :=
  x.major > y.major
  ∨ (x.major = y.major ∧ x.minor > y.minor)
  ∨ (x.major = y.major ∧ x.minor = y.minor ∧ x.patch > y.patch)
  ∨ (x.major = y.major ∧ x.minor = y.minor ∧ x.patch = y.patch
      ∧ x.prerelease = "" ∧ y.prerelease ≠ "")
  ∨ (x.major = y.major ∧ x.minor = y.minor ∧ x.patch = y.patch
      ∧ x.prerelease ≠ "" ∧ y.prerelease ≠ ""
      ∧ localeCompare x.prerelease y.prerelease < 0)
/-! ## Latest-version mark in `generateMarkdown` (spec-to-markdown.js:6) -/

/-- The relation induced by the comparator `(a, b) => b.localeCompare(a)` that
`generateMarkdown` uses to sort `allVersions` descending (plain string order,
not `compareVersions`). -/
def lexDescLE (a b : String) : Prop := localeCompare b a ≤ 0

instance : DecidableRel lexDescLE := fun a b => inferInstanceAs (Decidable (localeCompare b a ≤ 0))

/-- `const sortedVersions = [...allVersions].sort((a, b) => b.localeCompare(a))`. -/
def sortedVersionsDesc (allVersions : List String) : List String :=
  List.insertionSort lexDescLE allVersions

/-- `sortedVersions[0]`: the version the rendered document treats as latest. -/
def markedLatest (allVersions : List String) : Option String :=
  (sortedVersionsDesc allVersions).head?

/-- `const isLatest = sortedVersions[0] === specInfo.version`: whether the
document for `version` gets the `(latest)` sidebar label and latest badge. -/
def isLatestMark (version : String) (allVersions : List String) : Bool :=
  markedLatest allVersions == some version

/-! ## Stability badge test (`generateVersionBadge`, spec-to-markdown.js:83) -/

/-- `version.match(/^\d+\.\d+\.\d+$/)` viewed as a Boolean test. -/
def plainSemverMatch (v : String) : Bool :=
  match parseCore v.data with
  | some (_, _, _, rest) => rest.isEmpty
  | none => false

/-- The independent stability test inside `generateVersionBadge`:
`version.match(/^\d+\.\d+\.\d+$/) && !version.startsWith('0.')`. -/
def badgeIsStable (version : String) : Bool :=
  plainSemverMatch version && !(strStartsWith version "0.")

/-- A plainly-matching version whose major segment is a multi-digit run of
zeros (major written `"00"`, `"000"`, ...): exactly the inputs on which
`badgeIsStable` and `isStableVersion` will turn out to disagree. -/
def multiZeroMajor (v : String) : Bool :=
  match parseCore v.data with
  | some (d1, _, _, rest) => rest.isEmpty && decide (2 ≤ d1.length) && d1.all (· = '0')
  | none => false

/-! ## Path-shape filtering (`extractSpecInfo`, process-specs.js:128) -/

/-- The spec-info triple `extractSpecInfo` reads positionally from a path. -/
structure SpecPathInfo where
  publisher : String
  specName : String
  version : String
deriving DecidableEq, Repr

/-- `extractSpecInfo` (process-specs.js:128).  `parts` is the definition
file's path relative to the repository root, split at the path separator — so
its last component is the file name itself.  Any path with at least three
components is accepted, the triple being its first three components. -/
def extractSpecInfo (parts : List String) : Option SpecPathInfo :=
  if 3 ≤ parts.length then
    some ⟨parts.getD 0 "", parts.getD 1 "", parts.getD 2 ""⟩
  else none

/-- The first pass of `processSpecs` (process-specs.js:173): files whose
`extractSpecInfo` is `null` are skipped with a logged warning and contribute
no record downstream. -/
def discoveredSpecInfos (paths : List (List String)) : List SpecPathInfo :=
  paths.filterMap extractSpecInfo

/-! ## Group ordering (`generateSidebarsConfig`, process-specs.js:476) -/

/-- What the group comparator reads from a group: the group name and the
latest record's `page_order`; `typeof page_order === 'number'` is modelled as
`Option Int` (a missing or non-numeric field is `none`). -/
structure SidebarGroup where
  specName : String
  pageOrder? : Option Int
deriving DecidableEq, Repr

/-- The comparator of `generateSidebarsConfig` (textually repeated in
`processSpecs` and `generateIndexPage`): ascending `page_order` when both
present, a group with `page_order` before one without, otherwise
`localeCompare` on names. -/
def sidebarGroupCompare (a b : SidebarGroup) : Int :=
  match a.pageOrder?, b.pageOrder? with
  | some x, some y => x - y
  | some _, none => -1
  | none, some _ => 1
  | none, none => localeCompare a.specName b.specName

def sidebarGroupLE (a b : SidebarGroup) : Prop := sidebarGroupCompare a b ≤ 0

instance : DecidableRel sidebarGroupLE :=
  fun a b => inferInstanceAs (Decidable (sidebarGroupCompare a b ≤ 0))

/-- `.sort(...)` over the group entries in `generateSidebarsConfig`. -/
def sortSidebarGroups (gs : List SidebarGroup) : List SidebarGroup :=
  List.insertionSort sidebarGroupLE gs


/-! ## Type-reference parsing and the hierarchy walk
(`generateTypeHierarchySection`, spec-to-markdown.js:150) -/

/-- The capture groups of the leftmost match of the type-reference regular
expression `([^/]+)/([^@]+)@(.+)` used by `formatTypeReference` and the
hierarchy walk. -/
structure RefParts where
  publisher : List Char
  name : List Char
  version : List Char
deriving DecidableEq, Repr

/-- `[^@]+@(.+)` anchored at the start of `r2` (the part after the slash):
greedy non-`@` group, the `@`, and a non-empty tail. -/
def matchNameVer (r2 : List Char) : Option (List Char × List Char) :=
  match r2.dropWhile (· ≠ '@') with
  | '@' :: r3 =>
    if (r2.takeWhile (· ≠ '@')).isEmpty then none
    else if r3.isEmpty then none
    else some (r2.takeWhile (· ≠ '@'), r3)
  | _ => none

/-- Leftmost match of `([^/]+)/([^@]+)@(.+)`: slide the start position right
until a position admits a match (a non-slash run, a slash, then
`matchNameVer`).  The structural `fuel` only has to dominate the number of
positions slid past; every recursive call drops at least one character, so
`findRefParts` seeds it with the input length. -/
def findRefPartsAux (fuel : Nat) (cs : List Char) : Option RefParts :=
  match fuel with
  | 0 => none
  | fuel + 1 =>
    match cs with
    | [] => none
    | c :: t =>
      if c = '/' then findRefPartsAux fuel t
      else
        match (c :: t).dropWhile (· ≠ '/') with
        | '/' :: r2 =>
          match matchNameVer r2 with
          | some (g2, g3) => some ⟨(c :: t).takeWhile (· ≠ '/'), g2, g3⟩
          | none => findRefPartsAux fuel r2
        | _ => none

/-- Leftmost match of `([^/]+)/([^@]+)@(.+)` against a character list. -/
def findRefParts (cs : List Char) : Option RefParts := findRefPartsAux cs.length cs

/-- One pushed line of the "derives from" chain; `branch` records whether the
`└─` connector was rewritten to `├─` because the walk continued past it. -/
inductive ChainEntry where
  | node (ref : String) (branch : Bool)
  | meta (ref : String)
  | circular (ref : String)
deriving DecidableEq, Repr

/-- `currentType.includes('canon-protocol.org/type@')`: the meta-type
terminal of the chain walk. -/
def isMetaTypeRef (t : String) : Bool := strIncludes t "canon-protocol.org/type@"

/-- `Object.keys(context.typeHierarchy).find(key => key.startsWith(typeName + "@"))`
followed by the lookup of its value: the parent of the current reference. -/
def findParentType (th : List (String × String)) (typeName : String) : Option String :=
  (th.find? (fun kv => strStartsWith kv.1 (typeName ++ "@"))).map (·.2)

/-- The while-loop of `generateTypeHierarchySection` (spec-to-markdown.js:173):
`fuel` is `5 - depth` for the loop guard `depth < 5`.  Each iteration pushes
exactly one entry and either stops — on the meta-type reference, on a
revisited reference (flagged circular), on an unparseable reference, or on a
missing, empty or self parent — or follows the parent after adding the current
reference to the visited set. -/
def walkChain (th : List (String × String)) : Nat → List String → String → List ChainEntry
  | 0, _, _ => []
  | fuel + 1, visited, current =>
    if isMetaTypeRef current then [ChainEntry.meta current]
    else if current ∈ visited then [ChainEntry.circular current]
    else
      match findRefParts current.data with
      | none => [ChainEntry.node current false]
      | some parts =>
        match findParentType th (String.mk parts.name) with
        | none => [ChainEntry.node current false]
        | some parent =>
          if parent ≠ "" ∧ parent ≠ current then
            ChainEntry.node current true :: walkChain th fuel (current :: visited) parent
          else [ChainEntry.node current false]


/-! ## Field attribution (`generateSpecContentSection`) -/

/-- What the attribution logic of `generateSpecContentSection` reads from an
instance record: its top-level object keys in insertion order, its `type`
reference and its `includes` list. -/
structure InstSpec where
  keys : List String
  type? : Option String
  includes? : Option (List String)
deriving DecidableEq, Repr

/-- `const protocolFields = ['canon', 'type', 'metadata', 'includes', 'schema']`. -/
def protocolFields : List String := ["canon", "type", "metadata", "includes", "schema"]

/-- `Object.keys(spec).filter(key => !protocolFields.includes(key) && !key.startsWith('_'))`. -/
def specContentFields (spec : InstSpec) : List String :=
  spec.keys.filter (fun k => !protocolFields.contains k && !strStartsWith k "_")

/-- `context.typeSchemas`: for each type URI the referenced spec object's
optional `schema`, modelled by its list of field names — the attribution code
only ever tests key presence, and schema values are objects, hence truthy. -/
def TypeSchemas : Type := List (String × Option (List String))

/-- `typeSchemas[uri]` (plus the `.schema` access): `none` when no entry. -/
def lookupSchema (ts : TypeSchemas) (uri : String) : Option (Option (List String)) :=
  (List.find? (fun kv => kv.1 = uri) ts).map (·.2)

/-- Leftmost match of `([^@]+)@(.+)`: the `typeMatch`/`includeMatch` regular
expression of `generateSpecContentSection`, returning the base and version
groups. -/
def findBaseVer : List Char → Option (List Char × List Char)
  | [] => none
  | c :: t =>
    if c = '@' then findBaseVer t
    else
      match (c :: t).dropWhile (· ≠ '@') with
      | '@' :: r2 => if r2.isEmpty then none else some ((c :: t).takeWhile (· ≠ '@'), r2)
      | _ => none

/-- Where one content field is attributed. -/
inductive FieldAttribution where
  | base
  | composed (includeUri : String)
  | unattributed
deriving DecidableEq, Repr

/-- The inner include test: parse the include URI with `([^@]+)@(.+)`, rebuild
the lookup key, and test that the entry exists, has a `schema`, and that the
schema defines `fieldName`. -/
def includeDefinesField (ts : TypeSchemas) (includeUri fieldName : String) : Bool :=
  match findBaseVer includeUri.data with
  | some (b, ver) =>
    match lookupSchema ts (String.mk b ++ "@" ++ String.mk ver) with
    | some (some keys) => keys.contains fieldName
    | _ => false
  | none => false

/-- The per-field branch of the attribution loop: the base type's schema
first, otherwise the first include (scanned in order, `break` on success)
whose schema defines the field; a field matching nothing is dropped. -/
def attributeField (schemaKeys : List String) (ts : TypeSchemas) (includes : List String)
    (fieldName : String) : FieldAttribution :=
  if schemaKeys.contains fieldName then .base
  else
    match List.find? (fun u => includeDefinesField ts u fieldName) includes with
    | some u => .composed u
    | none => .unattributed

/-- `composedTypeFields[includeUri].push(fieldName)` with JS object key
semantics: append to the first entry with that key, or create the entry at
the end on first use. -/
def addComposed (comp : List (String × List String)) (u f : String) :
    List (String × List String) :=
  match comp with
  | [] => [(u, [f])]
  | (k, fs) :: rest =>
    if k = u then (k, fs ++ [f]) :: rest else (k, fs) :: addComposed rest u f

/-- The attribution loop over the record's content fields, accumulating
`baseTypeFields` and `composedTypeFields`. -/
def attributeFieldsGo (schemaKeys : List String) (ts : TypeSchemas) (includes : List String)
    (acc : List String × List (String × List String)) :
    List String → List String × List (String × List String)
  | [] => acc
  | f :: rest =>
    match attributeField schemaKeys ts includes f with
    | .base => attributeFieldsGo schemaKeys ts includes (acc.1 ++ [f], acc.2) rest
    | .composed u => attributeFieldsGo schemaKeys ts includes (acc.1, addComposed acc.2 u f) rest
    | .unattributed => attributeFieldsGo schemaKeys ts includes acc rest

def attributeFields (schemaKeys : List String) (ts : TypeSchemas) (includes : List String)
    (fields : List String) : List String × List (String × List String) :=
  attributeFieldsGo schemaKeys ts includes ([], []) fields

/-- The guards of `generateSpecContentSection` before the loop: skip records
whose type is the meta-type or missing, parse the type URI, require a
`typeSchemas` entry with a schema, require at least one content field; then
run the attribution loop (`includes` defaulting to empty). -/
def generateSpecContentAttribution (spec : InstSpec) (ts : TypeSchemas) :
    Option (List String × List (String × List String)) :=
  match spec.type? with
  | none => none
  | some t =>
    if isMetaTypeRef t then none
    else
      match findBaseVer t.data with
      | none => none
      | some (b, ver) =>
        match lookupSchema ts (String.mk b ++ "@" ++ String.mk ver) with
        | some (some schemaKeys) =>
          if (specContentFields spec).isEmpty then none
          else some (attributeFields schemaKeys ts (spec.includes?.getD [])
            (specContentFields spec))
        | _ => none

/-- Membership of a field under an include URI in the composed-fields table. -/
def compMem (comp : List (String × List String)) (u f : String) : Prop :=
  ∃ fs, (u, fs) ∈ comp ∧ f ∈ fs


/-! ## JSON-ish values and schema nodes (`spec-to-markdown.js`)

Schema nodes mirror exactly the JS object properties the rendering code
reads; a missing (or JS-falsy empty-string) property is `none`.  Numeric
bounds are integers.  An empty `enum` array (whose JS `enum[0]` is
`undefined`) is modelled by `List.head?` returning `none`. -/

inductive Value where
  | str (s : String)
  | num (n : Int)
  | bool (b : Bool)
  | arr (xs : List Value)
  | obj (fields : List (String × Value))

inductive Schema where
  | mk
    (example? : Option Value)
    (default? : Option Value)
    (type? : Option String)
    (enum? : Option (List Value))
    (format? : Option String)
    (pattern? : Option String)
    (minimum? : Option Int)
    (maximum? : Option Int)
    (minLength? : Option Int)
    (maxLength? : Option Int)
    (minItems? : Option Int)
    (maxItems? : Option Int)
    (description? : Option String)
    (examples? : Option (List Value))
    (items? : Option Schema)
    (properties? : Option (List (String × Schema)))
    (required? : Option (List String))
    (ref? : Option String)
    (oneOf? : Option (List Schema))
    (anyOf? : Option (List Schema))
    (definitions? : Option (List (String × Schema)))

def Schema.example? : Schema → Option Value
  | .mk x _ _ _ _ _ _ _ _ _ _ _ _ _ _ _ _ _ _ _ _ => x

def Schema.default? : Schema → Option Value
  | .mk _ x _ _ _ _ _ _ _ _ _ _ _ _ _ _ _ _ _ _ _ => x

def Schema.type? : Schema → Option String
  | .mk _ _ x _ _ _ _ _ _ _ _ _ _ _ _ _ _ _ _ _ _ => x

def Schema.enum? : Schema → Option (List Value)
  | .mk _ _ _ x _ _ _ _ _ _ _ _ _ _ _ _ _ _ _ _ _ => x

def Schema.format? : Schema → Option String
  | .mk _ _ _ _ x _ _ _ _ _ _ _ _ _ _ _ _ _ _ _ _ => x

def Schema.pattern? : Schema → Option String
  | .mk _ _ _ _ _ x _ _ _ _ _ _ _ _ _ _ _ _ _ _ _ => x

def Schema.minimum? : Schema → Option Int
  | .mk _ _ _ _ _ _ x _ _ _ _ _ _ _ _ _ _ _ _ _ _ => x

def Schema.maximum? : Schema → Option Int
  | .mk _ _ _ _ _ _ _ x _ _ _ _ _ _ _ _ _ _ _ _ _ => x

def Schema.minLength? : Schema → Option Int
  | .mk _ _ _ _ _ _ _ _ x _ _ _ _ _ _ _ _ _ _ _ _ => x

def Schema.maxLength? : Schema → Option Int
  | .mk _ _ _ _ _ _ _ _ _ x _ _ _ _ _ _ _ _ _ _ _ => x

def Schema.minItems? : Schema → Option Int
  | .mk _ _ _ _ _ _ _ _ _ _ x _ _ _ _ _ _ _ _ _ _ => x

def Schema.maxItems? : Schema → Option Int
  | .mk _ _ _ _ _ _ _ _ _ _ _ x _ _ _ _ _ _ _ _ _ => x

def Schema.description? : Schema → Option String
  | .mk _ _ _ _ _ _ _ _ _ _ _ _ x _ _ _ _ _ _ _ _ => x

def Schema.examples? : Schema → Option (List Value)
  | .mk _ _ _ _ _ _ _ _ _ _ _ _ _ x _ _ _ _ _ _ _ => x

def Schema.items? : Schema → Option Schema
  | .mk _ _ _ _ _ _ _ _ _ _ _ _ _ _ x _ _ _ _ _ _ => x

def Schema.properties? : Schema → Option (List (String × Schema))
  | .mk _ _ _ _ _ _ _ _ _ _ _ _ _ _ _ x _ _ _ _ _ => x

def Schema.required? : Schema → Option (List String)
  | .mk _ _ _ _ _ _ _ _ _ _ _ _ _ _ _ _ x _ _ _ _ => x

def Schema.ref? : Schema → Option String
  | .mk _ _ _ _ _ _ _ _ _ _ _ _ _ _ _ _ _ x _ _ _ => x

def Schema.oneOf? : Schema → Option (List Schema)
  | .mk _ _ _ _ _ _ _ _ _ _ _ _ _ _ _ _ _ _ x _ _ => x

def Schema.anyOf? : Schema → Option (List Schema)
  | .mk _ _ _ _ _ _ _ _ _ _ _ _ _ _ _ _ _ _ _ x _ => x

def Schema.definitions? : Schema → Option (List (String × Schema))
  | .mk _ _ _ _ _ _ _ _ _ _ _ _ _ _ _ _ _ _ _ _ x => x

/-- The all-absent schema node: what JS property access sees on a value with
none of the recognised properties (e.g. a plain string used where a schema is
expected). -/
def blankSchema : Schema :=
  .mk none none none none none none none none none none none
    none none none none none none none none none none

mutual

/-- `generateExampleFromSchema` (spec-to-markdown.js:553).  `none` is JS
`null`; a missing schema argument is `none`; the `depth > 3` guard bounds all
recursion.  The JS `switch (schema.type)` is written as an `if`-chain on the
same equality tests. -/
def generateExampleFromSchema : Option Schema → Nat → Option Value
  | none, _ => none
  | some s, depth =>
    if 3 < depth then none else
    match s.example? with
    | some v => some v
    | none =>
      match s.default? with
      | some v => some v
      | none =>
        if s.type? = some "string" then
          match s.enum? with
          | some es => es.head?
          | none =>
            if s.format? = some "uri" ∨ s.format? = some "url" then
              some (.str "https://example.com")
            else if s.format? = some "email" then some (.str "user@example.com")
            else if s.format? = some "date" then some (.str "2024-01-01")
            else if s.format? = some "date-time" then some (.str "2024-01-01T00:00:00Z")
            else
              match s.pattern? with
              | some p =>
                if strIncludes p "\\d" then some (.str "1.0.0")
                else some (.str "example-string")
              | none => some (.str "example-string")
        else if s.type? = some "number" ∨ s.type? = some "integer" then
          match s.minimum? with
          | some m => some (.num m)
          | none =>
            match s.maximum? with
            | some m => some (.num m)
            | none => some (.num 1)
        else if s.type? = some "boolean" then some (.bool true)
        else if s.type? = some "array" then
          match s.items? with
          | some it =>
            match generateExampleFromSchema (some it) (depth + 1) with
            | some x => some (.arr [x])
            | none => some (.arr [])
          | none => some (.arr [])
        else if s.type? = some "object" then
          match s.properties? with
          | some props => some (.obj (genObjectProps props (s.required?.getD []) (depth + 1)))
          | none => some (.obj [])
        else
          match s.ref? with
          | some r => some (.str ("# See " ++ r))
          | none =>
            match s.oneOf? with
            | some (s1 :: _) => generateExampleFromSchema (some s1) (depth + 1)
            | _ =>
              match s.anyOf? with
              | some (s1 :: _) => generateExampleFromSchema (some s1) (depth + 1)
              | _ => none
termination_by _ d => ((4 - d : Nat), 1, 0)
decreasing_by
  all_goals simp_wf
  all_goals (apply Prod.Lex.left; omega)

/-- The property loop of the object case.  `childDepth` is the caller's
`depth + 1` (so the source's `depth < 2` test reads `childDepth < 3` and the
recursive call passes `childDepth` on): a property is emitted when it is
required or the depth is still below the threshold, and only when its own
synthesis yields a value. -/
def genObjectProps : List (String × Schema) → List String → Nat → List (String × Value)
  | [], _, _ => []
  | (name, sc) :: rest, required, childDepth =>
    if name ∈ required ∨ childDepth < 3 then
      match generateExampleFromSchema (some sc) childDepth with
      | some v => (name, v) :: genObjectProps rest required childDepth
      | none => genObjectProps rest required childDepth
    else genObjectProps rest required childDepth
termination_by props _ childDepth => ((4 - childDepth : Nat), 2, props.length)
decreasing_by
  all_goals simp_wf
  all_goals first
    | (apply Prod.Lex.left; omega)
    | (apply Prod.Lex.right; apply Prod.Lex.left; omega)
    | (apply Prod.Lex.right; apply Prod.Lex.right; omega)

end


/-! ## Document rendering (`generateMarkdown` and its section generators)

JS objects read by the renderer are assoc lists in insertion order with
unique keys; `undefined`/`null` is `none`; a JS-falsy empty string in a
truthiness test counts as absent.  The external `js-yaml` `dump` and the
built-in `JSON.stringify` are not part of this repository, so the renderer
is parameterized over them (`dump`, `jsonDump`), applied to `none` where the
JS passes `null`. -/

/-- First-match association lookup (`object[key]`). -/
def jsGet {α : Type} (assoc : List (String × α)) (key : String) : Option α :=
  (assoc.find? (fun kv => kv.1 == key)).map (·.2)

/-- JS truthiness of a value. -/
def jsTruthy : Value → Bool
  | .str s => s != ""
  | .num n => n != 0
  | .bool b => b
  | .arr _ => true
  | .obj _ => true

/-- A computable size of a value: every nesting level contributes at least
one, so `valueSize v` dominates the nesting depth of `v` and can seed the
fuel of the value recursions below. -/
def valueSize : Value → Nat
  | .arr (v :: rest) => 1 + valueSize v + valueSize (.arr rest)
  | .obj ((_, v) :: rest) => 1 + valueSize v + valueSize (.obj rest)
  | _ => 1
termination_by v => sizeOf v
decreasing_by
  all_goals simp_wf
  all_goals omega

/-- Template-literal stringification, fuel-bounded (the seed `valueSize v`
dominates the nesting depth): strings verbatim, numbers in decimal, booleans
`true`/`false`, arrays joined with a comma, plain objects `[object Object]`. -/
def jsToStringF : Nat → Value → String
  | 0, _ => ""
  | f + 1, v =>
    match v with
    | .str s => s
    | .num n => toString n
    | .bool b => if b then "true" else "false"
    | .arr xs => String.intercalate "," (xs.map (jsToStringF f))
    | .obj _ => "[object Object]"

def jsToString (v : Value) : String := jsToStringF (valueSize v) v

/-- `Object.keys(v).length` of a JS value: object fields, array indices,
string indices, and `0` for every primitive. -/
def jsKeysCount : Value → Nat
  | .obj fs => fs.length
  | .arr xs => xs.length
  | .str s => s.length
  | _ => 0

/-- `${v ?? fallback}`-style interpolation: the value when truthy, the
fallback string otherwise (`metadata?.title || specInfo.specName`). -/
def jsOrElse (v? : Option Value) (fallback : String) : String :=
  match v? with
  | some v => if jsTruthy v then jsToString v else fallback
  | none => fallback

/-- A truthy optional string (`if (s)` on a string-valued property). -/
def presentStr : Option String → Option String
  | some s => if s = "" then none else some s
  | none => none

def jsStrV : Option Value → Option String
  | some (.str s) => if s = "" then none else some s
  | _ => none

def jsIntV : Option Value → Option Int
  | some (.num n) => some n
  | _ => none

def jsArrV : Option Value → Option (List Value)
  | some (.arr xs) => some xs
  | _ => none

def jsObjV : Option Value → Option (List (String × Value))
  | some (.obj fs) => some fs
  | _ => none

def jsStrListV : Option Value → Option (List String)
  | some (.arr xs) => some (xs.filterMap (fun v => match v with | .str s => some s | _ => none))
  | _ => none

/-- How `generateExampleFromSchema` and the schema renderers see an arbitrary
JS value used as a schema node: each recognised property is read off an
object (anything else has none of them), fuel-bounded with seed `valueSize v`
dominating the nesting depth. -/
def coerceToSchemaF : Nat → Value → Schema
  | 0, _ => blankSchema
  | f + 1, .obj fields =>
    Schema.mk (jsGet fields "example") (jsGet fields "default")
      (jsStrV (jsGet fields "type")) (jsArrV (jsGet fields "enum"))
      (jsStrV (jsGet fields "format")) (jsStrV (jsGet fields "pattern"))
      (jsIntV (jsGet fields "minimum")) (jsIntV (jsGet fields "maximum"))
      (jsIntV (jsGet fields "minLength")) (jsIntV (jsGet fields "maxLength"))
      (jsIntV (jsGet fields "minItems")) (jsIntV (jsGet fields "maxItems"))
      (jsStrV (jsGet fields "description")) (jsArrV (jsGet fields "examples"))
      ((jsGet fields "items").map (coerceToSchemaF f))
      ((jsObjV (jsGet fields "properties")).map (List.map (fun p => (p.1, coerceToSchemaF f p.2))))
      (jsStrListV (jsGet fields "required"))
      (jsStrV (jsGet fields "$ref"))
      ((jsArrV (jsGet fields "oneOf")).map (List.map (coerceToSchemaF f)))
      ((jsArrV (jsGet fields "anyOf")).map (List.map (coerceToSchemaF f)))
      ((jsObjV (jsGet fields "definitions")).map (List.map (fun p => (p.1, coerceToSchemaF f p.2))))
  | _ + 1, _ => blankSchema

def coerceToSchema (v : Value) : Schema := coerceToSchemaF (valueSize v) v

/-- The `specInfo` record the renderer receives. -/
structure RSpecInfo where
  publisher : String
  specName : String
  version : String

/-- The parsed spec record: the top-level keys `generateMarkdown` reads.
`_info` is attached by the processing script before rendering. -/
structure RSpec where
  canon? : Option String
  type? : Option String
  metadata? : Option (List (String × Value))
  includes? : Option (List String)
  schema? : Option Schema
  info? : Option RSpecInfo

/-- The rendering context; a missing JS context map is the empty list. -/
structure RContext where
  allVersions : List String
  typeHierarchy : List (String × String)
  sourceFiles : List (String × String)
  derivedTypes : List (String × List String)

/-- `formatTypeReference` (spec-to-markdown.js:94): `N/A` for an absent or
empty reference, a bare code span when the reference does not parse, and
otherwise a code span or doc link, tagging the meta-type. -/
def formatTypeReference (type? : Option String) (asLink : Bool) : String :=
  match presentStr type? with
  | none => "N/A"
  | some t =>
    match findRefParts t.data with
    | none => "`" ++ t ++ "`"
    | some parts =>
      if asLink then
        "[`" ++ (if isMetaTypeRef t then t ++ " (meta-type)" else t) ++ "`](/docs/specifications/"
          ++ String.mk parts.name ++ "/" ++ String.mk parts.version ++ ")"
      else
        if isMetaTypeRef t then "`" ++ t ++ "` (meta-type)" else "`" ++ t ++ "`"

/-- `formatIncludes`: comma-joined formatted references, empty when the list
is absent or empty. -/
def formatIncludes (includes? : Option (List String)) (asLink : Bool) : String :=
  match includes? with
  | none => ""
  | some [] => ""
  | some incs => String.intercalate ", " (incs.map (fun inc => formatTypeReference (some inc) asLink))

/-- `generateVersionBadge`: version badge, optional latest badge, and the
stability badge chosen by `badgeIsStable`, joined by single spaces. -/
def generateVersionBadge (version : String) (isLatest : Bool) : String :=
  String.intercalate " "
    (["![Version](https://img.shields.io/badge/version-" ++ version ++ "-blue)"]
      ++ (if isLatest then ["![Latest](https://img.shields.io/badge/latest-✓-green)"] else [])
      ++ [if badgeIsStable version then
            "![Stable](https://img.shields.io/badge/stability-stable-green)"
          else
            "![Pre-release](https://img.shields.io/badge/stability-pre--release-orange)"])

/-- `generateVersionNavigation`: empty for at most one version, otherwise the
descending lexicographic version list with the current one bolded. -/
def generateVersionNavigation (si : RSpecInfo) (allVersions : List String) : String :=
  if allVersions.length ≤ 1 then "" else
    "## Version Navigation\n\n<div class=\"version-nav\">\n\n**Available versions:** "
      ++ String.intercalate " • " ((sortedVersionsDesc allVersions).map (fun v =>
          if v = si.version then "**" ++ v ++ "** (current)" else "[" ++ v ++ "](../" ++ v ++ ")"))
      ++ "\n\n</div>\n"

/-- One rendered line of the hierarchy walked by `walkChain`: the connector is
`├─` on entries the walk continued past, `└─` otherwise, and the circular
terminal is rendered without a link. -/
def renderChainEntry : ChainEntry → String
  | .meta ref => "└─ " ++ formatTypeReference (some ref) true
  | .circular ref => "└─ " ++ formatTypeReference (some ref) false ++ " (circular reference)"
  | .node ref branch => (if branch then "├─ " else "└─ ") ++ formatTypeReference (some ref) true

/-- `generateTypeHierarchySection`: always opens with the Type Information
heading; adds the meta-type info box for the spec named `type`, else the
walked hierarchy and direct parent when a type reference exists; then the
Composes block and the Known Derived Types block when their inputs exist. -/
def generateTypeHierarchySection (spec : RSpec) (si : RSpecInfo) (ctx : RContext) : String :=
  "## Type Information\n\n"
    ++ (if si.specName = "type" then
          ":::info Meta-Type\nThis is the foundational meta-type from which all other Canon Protocol types derive. It defines the structure and validation rules for creating new types.\n:::\n\n"
        else
          match presentStr spec.type? with
          | some t =>
            "### Type Hierarchy\n\n"
              ++ String.intercalate "\n"
                  (("**" ++ si.specName ++ "@" ++ si.version ++ "** (this specification)")
                    :: (walkChain ctx.typeHierarchy 5 [] t).map renderChainEntry)
              ++ "\n\n### Direct Parent\n\nThis type derives from: "
              ++ formatTypeReference (some t) true ++ "\n\n"
          | none => "")
    ++ (match spec.includes? with
        | some (i :: is) =>
          "### Composes\n\nThis type composes the following types:\n\n"
            ++ String.join ((i :: is).map (fun inc => "- " ++ formatTypeReference (some inc) true ++ "\n"))
            ++ "\n"
        | _ => "")
    ++ (match jsGet ctx.derivedTypes (si.publisher ++ "/" ++ si.specName ++ "@" ++ si.version) with
        | some (d :: ds) =>
          "### Known Derived Types\n\nThe following types derive from this specification:\n\n"
            ++ String.join ((d :: ds).map (fun dt => "- " ++ formatTypeReference (some dt) true ++ "\n"))
            ++ "\n"
        | _ => "")

/-- The fixed key/label table of `generateMetadataSection`. -/
def metadataFields : List (String × String) :=
  [("id", "Identifier"), ("publisher", "Publisher"), ("title", "Title"),
   ("description", "Description"), ("version", "Version"), ("license", "License"),
   ("homepage", "Homepage"), ("repository", "Repository")]

/-- One table cell: URL strings become links, arrays are comma-joined, and
everything else is interpolated as a template literal would. -/
def metadataCell (v : Value) : String :=
  match v with
  | .str s =>
    if strStartsWith s "http://" || strStartsWith s "https://" then
      "[" ++ s ++ "](" ++ s ++ ")"
    else s
  | .arr xs => String.intercalate ", " (xs.map jsToString)
  | v => jsToString v

/-- `generateMetadataSection`: empty for an absent metadata object or one
with no truthy recognised field, else the heading and a table row per truthy
recognised field in table order. -/
def generateMetadataSection (metadata? : Option (List (String × Value))) : String :=
  match metadata? with
  | none => ""
  | some m =>
    if metadataFields.any (fun f => (jsGet m f.1).any jsTruthy) then
      "## Metadata\n\n| Field | Value |\n|-------|-------|\n"
        ++ String.join (metadataFields.map (fun f =>
            match jsGet m f.1 with
            | some v =>
              if jsTruthy v then "| **" ++ f.2 ++ "** | " ++ metadataCell v ++ " |\n" else ""
            | none => ""))
    else ""

mutual

/-- A computable bound on a schema node's nesting along items and the
oneOf/anyOf alternatives: every level contributes at least one, so
`schemaFuel s` dominates the recursion depth of `formatTypeF` on `s`. -/
def schemaFuel : Schema → Nat
  | .mk _ _ _ _ _ _ _ _ _ _ _ _ _ _ it _ _ _ oo ao _ =>
    1 + (match it with | some s => schemaFuel s | none => 0)
      + (match oo with | some l => schemaFuelL l | none => 0)
      + (match ao with | some l => schemaFuelL l | none => 0)
termination_by s => sizeOf s
decreasing_by
  all_goals simp_wf
  all_goals omega

def schemaFuelL : List Schema → Nat
  | [] => 0
  | s :: rest => 1 + schemaFuel s + schemaFuelL rest
termination_by l => sizeOf l
decreasing_by
  all_goals simp_wf
  all_goals omega

end

/-- `formatType` (spec-to-markdown.js:331), fuel-bounded (the seed
`schemaFuel s` dominates the recursion through items and alternatives): the declared type
with array item, enum, format and pattern decorations, else a local link for
a reference, else the joined alternatives of oneOf/anyOf, else `any`. -/
def formatTypeF : Nat → Schema → String
  | 0, _ => "any"
  | f + 1, s =>
    match presentStr s.type? with
    | some ty =>
      (match s.items? with
        | some it => if ty = "array" then "array<" ++ formatTypeF f it ++ ">" else ty
        | none => ty)
        ++ (match s.enum? with
            | some es =>
              " (" ++ String.intercalate " \\| " (es.map (fun e => "`" ++ jsToString e ++ "`")) ++ ")"
            | none => "")
        ++ (match presentStr s.format? with
            | some fm => " (" ++ fm ++ ")"
            | none => "")
        ++ (match presentStr s.pattern? with
            | some p => " (pattern: `" ++ p ++ "`)"
            | none => "")
    | none =>
      match presentStr s.ref? with
      | some r =>
        "[" ++ (r.splitOn "/").getLastD "" ++ "](#" ++ ((r.splitOn "/").getLastD "").toLower ++ ")"
      | none =>
        match s.oneOf? with
        | some xs => String.intercalate " \\| " (xs.map (formatTypeF f))
        | none =>
          match s.anyOf? with
          | some xs => String.intercalate " \\| " (xs.map (formatTypeF f))
          | none => "any"

def formatType (s : Schema) : String := formatTypeF (schemaFuel s) s

/-- `generatePropertiesTable`: one row per property with formatted type,
required marker, and description. -/
def generatePropertiesTable (props : List (String × Schema)) (required : List String) : String :=
  "| Property | Type | Required | Description |\n|----------|------|----------|-------------|\n"
    ++ String.join (props.map (fun p =>
        "| `" ++ p.1 ++ "` | " ++ formatType p.2 ++ " | "
          ++ (if p.1 ∈ required then "✅" else "❌") ++ " | "
          ++ p.2.description?.getD "" ++ " |\n"))
    ++ "\n"

/-- `typeof example === 'object'` over our value type. -/
def isObjLike : Value → Bool
  | .obj _ => true
  | .arr _ => true
  | _ => false

/-- `generateSchemaDescription`: description, non-object type line, default,
yaml-dumped examples, and the numeric/length/items constraint lines. -/
def generateSchemaDescription (dump : Option Value → String) (jsonDump : Option Value → String)
    (s : Schema) : String :=
  (match presentStr s.description? with
    | some de => de ++ "\n\n"
    | none => "")
    ++ (match presentStr s.type? with
        | some ty => if ty ≠ "object" then "**Type:** " ++ formatType s ++ "\n\n" else ""
        | none => "")
    ++ (match s.default? with
        | some dv => "**Default:** `" ++ jsonDump (some dv) ++ "`\n\n"
        | none => "")
    ++ (match s.examples? with
        | some (e :: es) =>
          "**Examples:**\n\n"
            ++ String.join ((e :: es).map (fun ex =>
                "```yaml\n" ++ (if isObjLike ex then dump (some ex) else jsToString ex) ++ "```\n\n"))
        | _ => "")
    ++ (match s.minimum?, s.maximum? with
        | none, none => ""
        | mi, ma =>
          "**Constraints:** "
            ++ String.intercalate ", "
                ((mi.map (fun n => "min: " ++ toString n)).toList
                  ++ (ma.map (fun n => "max: " ++ toString n)).toList)
            ++ "\n\n")
    ++ (match s.minLength?, s.maxLength? with
        | none, none => ""
        | mi, ma =>
          "**Length:** "
            ++ String.intercalate ", "
                ((mi.map (fun n => "min length: " ++ toString n)).toList
                  ++ (ma.map (fun n => "max length: " ++ toString n)).toList)
            ++ "\n\n")
    ++ (match s.minItems?, s.maxItems? with
        | none, none => ""
        | mi, ma =>
          "**Items:** "
            ++ String.intercalate ", "
                ((mi.map (fun n => "min items: " ++ toString n)).toList
                  ++ (ma.map (fun n => "max items: " ++ toString n)).toList)
            ++ "\n\n")

/-- `generateSchemaSection`: empty for an absent schema; else the heading,
a properties table for object schemas with properties (description
otherwise), and the definitions subsections when present. -/
def generateSchemaSection (dump : Option Value → String) (jsonDump : Option Value → String)
    (schema? : Option Schema) : String :=
  match schema? with
  | none => ""
  | some s =>
    "## Schema\n\n"
      ++ (if s.type? = some "object" ∧ s.properties?.isSome then
            generatePropertiesTable (s.properties?.getD []) (s.required?.getD [])
          else generateSchemaDescription dump jsonDump s)
      ++ (match s.definitions? with
          | some defs =>
            "\n### Definitions\n\n"
              ++ String.join (defs.map (fun d =>
                  "#### " ++ d.1 ++ "\n\n"
                    ++ generateSchemaDescription dump jsonDump d.2
                    ++ (match d.2.properties? with
                        | some ps => generatePropertiesTable ps (d.2.required?.getD [])
                        | none => "")
                    ++ "\n"))
          | none => "")

/-- The `indent` helper: prefix every non-empty line with the given number of
spaces. -/
def indent (text : String) (spaces : Nat) : String :=
  String.intercalate "\n" ((text.splitOn "\n").map (fun line =>
    if line = "" then line else String.mk (List.replicate spaces ' ') ++ line))

/-- The throwaway schema node `{ type: 'object', properties: spec.metadata }`
the examples section synthesizes a metadata example from. -/
def metaPropsSchema (m : List (String × Value)) : Schema :=
  Schema.mk none none (some "object") none none none none none none none none
    none none none none (some (m.map (fun p => (p.1, coerceToSchema p.2)))) none
    none none none none

/-- `generateExamplesSection`: the Using-this-Type block for type definitions
carrying their info record, then the Complete Example yaml block assembled
from canon, type, includes, a synthesized metadata example, and the
synthesized schema example when it is truthy and has keys. -/
def generateExamplesSection (dump : Option Value → String) (spec : RSpec) : String :=
  "## Example Usage\n\n"
    ++ (match spec.info? with
        | some i =>
          if (match spec.type? with | some t => isMetaTypeRef t | none => false) then
            "### Using this Type\n\nThis specification defines a type that can be used as a base for other specifications:\n\n```yaml\ncanon: \"1.0\"\ntype: "
              ++ i.publisher ++ "/" ++ i.specName ++ "@" ++ i.version
              ++ "\nmetadata:\n  id: my-specification\n  version: 1.0.0\n  publisher: example.com\n  title: My Custom Specification\n\n# Define your specification here\n```\n\n"
          else ""
        | none => "")
    ++ "### Complete Example\n\n"
    ++ "```yaml\ncanon: \"" ++ (match presentStr spec.canon? with | some c => c | none => "1.0") ++ "\"\n"
    ++ (match presentStr spec.type? with
        | some t => "type: " ++ t ++ "\n"
        | none => "")
    ++ (match spec.includes? with
        | some (i :: is) => "includes:\n" ++ String.join ((i :: is).map (fun inc => "  - " ++ inc ++ "\n"))
        | _ => "")
    ++ (match spec.metadata? with
        | some m =>
          "metadata:\n" ++ indent (dump (generateExampleFromSchema (some (metaPropsSchema m)) 0)) 2
        | none => "")
    ++ (match generateExampleFromSchema spec.schema? 0 with
        | some ex => if jsTruthy ex ∧ 0 < jsKeysCount ex then dump (some ex) else ""
        | none => "")
    ++ "```\n"

/-- The relation induced by the source-file comparator: `canon.yml` first,
then plain lexicographic order. -/
def sourceFileLE (a b : String) : Prop :=
  a = "canon.yml" ∨ (b ≠ "canon.yml" ∧ localeCompare a b ≤ 0)

instance : DecidableRel sourceFileLE := fun a b =>
  inferInstanceAs (Decidable (a = "canon.yml" ∨ (b ≠ "canon.yml" ∧ localeCompare a b ≤ 0)))

def sortSourceFileNames (names : List String) : List String :=
  List.insertionSort sourceFileLE names

/-- One file of the Source Files section: heading, links, and either a
preview block for files over 200 lines or the full fenced content. -/
def renderSourceFile (si : RSpecInfo) (fileName content : String) : String :=
  let language :=
    if strEndsWith fileName ".json" then "json"
    else if strEndsWith fileName ".md" then "markdown"
    else if strEndsWith fileName ".yml" || strEndsWith fileName ".yaml" then "yaml"
    else if strEndsWith fileName ".js" then "javascript"
    else if strEndsWith fileName ".ts" then "typescript"
    else "yaml"
  let content := content.trim
  let lineCount := (content.splitOn "\n").length
  "### " ++ fileName ++ "\n\n[View on GitHub](https://github.com/canon-protocol/canon/tree/main/"
    ++ si.publisher ++ "/" ++ si.specName ++ "/" ++ si.version ++ "/" ++ fileName
    ++ ") | [View Raw](https://raw.githubusercontent.com/canon-protocol/canon/main/"
    ++ si.publisher ++ "/" ++ si.specName ++ "/" ++ si.version ++ "/" ++ fileName ++ ")\n\n"
    ++ (if 200 < lineCount then
          ":::note\nThis file contains " ++ toString lineCount
            ++ " lines. View the full content using the links above.\n:::\n\n"
            ++ "**Preview (first 50 lines):**\n\n"
            ++ (if strIncludes (String.intercalate "\n" ((content.splitOn "\n").take 50)) "```"
                then "````" else "```")
            ++ language ++ "\n"
            ++ String.intercalate "\n" ((content.splitOn "\n").take 50)
            ++ "\n...\n"
            ++ (if strIncludes (String.intercalate "\n" ((content.splitOn "\n").take 50)) "```"
                then "````" else "```")
            ++ "\n\n"
        else
          (if strIncludes content "```" then "````" else "```") ++ language ++ "\n"
            ++ content ++ "\n"
            ++ (if strIncludes content "```" then "````" else "```") ++ "\n\n")

/-- `generateSourceFilesSection`: empty for an empty file map; else the
heading and info box followed by each file (canon.yml sorted first, falsy
contents skipped). -/
def generateSourceFilesSection (sourceFiles : List (String × String)) (si : RSpecInfo) : String :=
  if sourceFiles.isEmpty then "" else
    "## Source Files\n\n:::info\nThese are the source files from the Canon Protocol registry for this specification.\n:::\n\n"
      ++ String.join ((sortSourceFileNames (sourceFiles.map Prod.fst)).map (fun fileName =>
          match jsGet sourceFiles fileName with
          | some content => if content = "" then "" else renderSourceFile si fileName content
          | none => ""))

/-- `generateMarkdown` (spec-to-markdown.js:1): front-matter, identity
header, then every section joined by blank lines in source order. -/
def generateMarkdown (dump : Option Value → String) (jsonDump : Option Value → String)
    (spec : RSpec) (si : RSpecInfo) (ctx : RContext) : String :=
  let isLatest := isLatestMark si.version ctx.allVersions
  let title := jsOrElse (spec.metadata?.bind (fun m => jsGet m "title")) si.specName
  ("---\nid: " ++ si.version ++ "\ntitle: " ++ title ++ " v" ++ si.version
      ++ "\nsidebar_label: v" ++ si.version ++ (if isLatest then " (latest)" else "")
      ++ "\nhide_table_of_contents: false\ncustom_edit_url: null\n---")
    ++ "\n\n"
    ++ ("\n# " ++ title ++ "\n\n" ++ generateVersionBadge si.version isLatest
        ++ "\n\n**Publisher:** " ++ si.publisher ++ "  \n**Type:** "
        ++ formatTypeReference spec.type? true ++ "  \n"
        ++ (match spec.includes? with
            | some incs => "**Composes:** " ++ formatIncludes (some incs) true ++ "  "
            | none => "")
        ++ "\n\n" ++ jsOrElse (spec.metadata?.bind (fun m => jsGet m "description")) "" ++ "\n")
    ++ "\n\n" ++ generateVersionNavigation si ctx.allVersions
    ++ "\n\n" ++ generateTypeHierarchySection spec si ctx
    ++ "\n\n" ++ generateMetadataSection spec.metadata?
    ++ "\n\n" ++ generateSchemaSection dump jsonDump spec.schema?
    ++ "\n\n" ++ generateExamplesSection dump spec
    ++ "\n\n" ++ generateSourceFilesSection ctx.sourceFiles si
    ++ "\n"


/-! ## The documentation index page (`generateIndexPage`, process-specs.js:322)

The current script sorts the group names (a computation whose result is never
used) and then writes one fixed markdown document; nothing of the processed
records reaches the output. -/

/-- What the index-page comparator reads from a processed record: its version
and its `page_order` when that field is a number. -/
structure IdxSpec where
  version : String
  pageOrder? : Option Int

/-- The category comparator of `generateIndexPage`: by the `page_order` of
each group's first (latest) record when both have one, records with a
`page_order` first, then plain lexicographic names.  (A group with no records,
on which the JS would throw, reads as having no `page_order`.) -/
def idxCategoryCompare (sbt : List (String × List IdxSpec)) (a b : String) : Int :=
  match ((jsGet sbt a).bind List.head?).bind IdxSpec.pageOrder?,
        ((jsGet sbt b).bind List.head?).bind IdxSpec.pageOrder? with
  | some x, some y => x - y
  | some _, none => -1
  | none, some _ => 1
  | none, none => localeCompare a b

def idxCategoryLE (sbt : List (String × List IdxSpec)) (a b : String) : Prop :=
  idxCategoryCompare sbt a b ≤ 0

instance (sbt : List (String × List IdxSpec)) : DecidableRel (idxCategoryLE sbt) := fun a b =>
  inferInstanceAs (Decidable (idxCategoryCompare sbt a b ≤ 0))

/-- `Object.keys(specsByType).sort(...)`: the sorted category list the
function computes and then never reads. -/
def idxCategories (sbt : List (String × List IdxSpec)) : List String :=
  List.insertionSort (idxCategoryLE sbt) (sbt.map Prod.fst)

/-- The fixed markdown document `generateIndexPage` writes, verbatim. -/
def indexPageMarkdown : String :=
  "---\nid: index\ntitle: Canon Protocol\nsidebar_label: Overview\nsidebar_position: 1\ncustom_edit_url: null\n---\n\n# Canon Protocol Documentation\n\nWelcome to the Canon Protocol documentation. Canon is a universal specification registry protocol that enables decentralized, interoperable management and distribution of specifications.\n\n## Why \"Canon\"?\n\nThe name \"Canon\" comes from **canonicalization** — the process of converting data into a standard, canonical form. Just as canonicalization ensures consistent representation of information, Canon Protocol establishes a universal standard for defining, publishing, and sharing specifications. This creates a single source of truth for data structures, APIs, and protocols across different systems and organizations.\n\n## What is Canon Protocol?\n\nCanon Protocol provides a standardized way to:\n\n- **Define** specifications using a universal schema format\n- **Publish** specifications to decentralized registries\n- **Discover** and retrieve specifications from any registry\n- **Verify** authenticity through cryptographic signatures\n- **Version** specifications with full compatibility tracking\n\n## Key Concepts\n\n### Specifications\nA specification in Canon Protocol is a formal description of a data structure, API, or protocol. Each spec is:\n- Versioned using semantic versioning\n- Signed by its publisher\n- Discoverable through registries\n- Interoperable across ecosystems\n\n### Registries\nRegistries are services that host and distribute Canon specifications. They can be:\n- **Public** or **Private**\n- **Read-only** or **Read-write**\n- **Centralized** or **Decentralized**\n\n### Publishers\nPublishers are entities that create and sign specifications. Each publisher:\n- Controls their own namespace\n- Manages their signing keys\n- Can publish to multiple registries\n\n## Quick Start\n\n### Prerequisites\n\nThe Canon CLI is written in Rust and distributed via Cargo. To install it, you'll need:\n\n- **Rust** (1.70 or later) - [Install Rust](https://rustup.rs/)\n- **Cargo** (comes with Rust)\n\n### Installation\n\nOnce you have Rust installed, you can install the Canon CLI:\n\n```bash\ncargo install canon-cli\n```\n\nThis will download, compile, and install the `canon` command to your system.\n\n### Basic Usage\n\nInitialize a new Canon project:\n\n```bash\ncanon init my-project\n```\n\nAdd a specification:\n\n```bash\ncanon add registry@1.0.0\n```\n\nPublish your specifications:\n\n```bash\ncanon publish\n```\n\n## Architecture Overview\n\n```\n┌─────────────┐     ┌──────────────┐     ┌─────────────┐\n│  Publisher  │────▶│   Registry   │◀────│  Consumer   │\n└─────────────┘     └──────────────┘     └─────────────┘\n       │                    │                     │\n       ▼                    ▼                     ▼\n  [Signs Specs]      [Stores Specs]       [Fetches Specs]\n```\n\n## Why Canon Protocol?\n\n### Universal Compatibility\nWorks with any specification format, programming language, or ecosystem.\n\n### Decentralized by Design\nNo single point of control or failure. Publishers maintain sovereignty over their specifications.\n\n### Cryptographically Secure\nAll specifications are signed and verified, ensuring authenticity and integrity.\n\n### Version-Aware\nFull semantic versioning support with compatibility tracking and dependency resolution.\n\n## Resources\n\n- [Canon CLI](https://github.com/canon-protocol/canon-cli) - Command-line tools\n- [Canon Registry](https://github.com/canon-protocol/canon) - Official specification registry\n- [GitHub Organization](https://github.com/canon-protocol) - Source code and issues\n"

/-- `generateIndexPage`: the content written to `docs/index.md`.  The sorted
categories are computed exactly as in the source and then dropped. -/
def generateIndexPage (sbt : List (String × List IdxSpec)) : String :=
  let _categories := idxCategories sbt
  indexPageMarkdown


/-! ## Theorems: string comparison -/

theorem lexCmp_self (l : List Char) : lexCmp l l = 0 := by
  induction l with
  | nil => rfl
  | cons a as ih => simp [lexCmp, lt_irrefl, ih]

theorem lexCmp_range (a b : List Char) : lexCmp a b = -1 ∨ lexCmp a b = 0 ∨ lexCmp a b = 1 := by
  induction a generalizing b with
  | nil => cases b <;> simp [lexCmp]
  | cons x xs ih =>
    cases b with
    | nil => simp [lexCmp]
    | cons y ys =>
      by_cases h1 : x < y
      · simp [lexCmp, h1]
      · by_cases h2 : y < x
        · simp [lexCmp, h1, h2]
        · simpa [lexCmp, h1, h2] using ih ys

theorem lexCmp_eq_zero_iff (a b : List Char) : lexCmp a b = 0 ↔ a = b := by
  induction a generalizing b with
  | nil => cases b <;> simp [lexCmp]
  | cons x xs ih =>
    cases b with
    | nil => simp [lexCmp]
    | cons y ys =>
      by_cases h1 : x < y
      · simp only [lexCmp, if_pos h1]
        constructor
        · intro h
          exact absurd h (by norm_num)
        · intro h
          rw [List.cons.injEq] at h
          exact absurd (h.1 ▸ h1) (lt_irrefl y)
      · by_cases h2 : y < x
        · simp only [lexCmp, if_neg h1, if_pos h2]
          constructor
          · intro h
            exact absurd h (by norm_num)
          · intro h
            rw [List.cons.injEq] at h
            exact absurd (h.1 ▸ h2) (lt_irrefl x)
        · have hxy : x = y := le_antisymm (not_lt.mp h2) (not_lt.mp h1)
          subst hxy
          simpa [lexCmp, lt_irrefl] using ih ys

theorem lexCmp_neg (a b : List Char) : lexCmp a b = -lexCmp b a := by
  induction a generalizing b with
  | nil => cases b <;> simp [lexCmp]
  | cons x xs ih =>
    cases b with
    | nil => simp [lexCmp]
    | cons y ys =>
      by_cases h1 : x < y
      · have h2 : ¬ y < x := lt_asymm h1
        simp [lexCmp, h1, h2]
      · by_cases h2 : y < x
        · simp [lexCmp, h1, h2]
        · simp [lexCmp, h1, h2, ih]

theorem lexCmp_lt_trans {a b c : List Char} :
    lexCmp a b < 0 → lexCmp b c < 0 → lexCmp a c < 0 := by
  induction a generalizing b c with
  | nil =>
    intro _ hbc
    cases b with
    | nil => cases c <;> simp_all [lexCmp]
    | cons y ys =>
      cases c with
      | nil => simp_all [lexCmp]
      | cons z zs => simp [lexCmp]
  | cons x xs ih =>
    intro hab hbc
    cases b with
    | nil => simp [lexCmp] at hab
    | cons y ys =>
      cases c with
      | nil => simp [lexCmp] at hbc
      | cons z zs =>
        simp only [lexCmp] at hab hbc ⊢
        by_cases hxy : x < y
        · by_cases hyz : y < z
          · rw [if_pos (lt_trans hxy hyz)]
            norm_num
          · by_cases hzy : z < y
            · rw [if_neg hyz, if_pos hzy] at hbc
              exact absurd hbc (by norm_num)
            · have hyz' : y = z := le_antisymm (not_lt.mp hzy) (not_lt.mp hyz)
              rw [if_pos (hyz' ▸ hxy)]
              norm_num
        · by_cases hyx : y < x
          · rw [if_neg hxy, if_pos hyx] at hab
            exact absurd hab (by norm_num)
          · have hxy' : x = y := le_antisymm (not_lt.mp hyx) (not_lt.mp hxy)
            subst hxy'
            rw [if_neg (lt_irrefl x), if_neg (lt_irrefl x)] at hab
            by_cases hxz : x < z
            · rw [if_pos hxz]
              norm_num
            · by_cases hzx : z < x
              · rw [if_neg hxz, if_pos hzx] at hbc
                exact absurd hbc (by norm_num)
              · have hxz' : x = z := le_antisymm (not_lt.mp hzx) (not_lt.mp hxz)
                subst hxz'
                rw [if_neg (lt_irrefl x), if_neg (lt_irrefl x)] at hbc ⊢
                exact ih hab hbc

theorem lexCmp_le_trans {a b c : List Char} :
    lexCmp a b ≤ 0 → lexCmp b c ≤ 0 → lexCmp a c ≤ 0 := by
  intro hab hbc
  rcases lt_or_eq_of_le hab with h | h
  · rcases lt_or_eq_of_le hbc with h' | h'
    · exact le_of_lt (lexCmp_lt_trans h h')
    · have : b = c := (lexCmp_eq_zero_iff b c).mp h'
      subst this
      exact le_of_lt h
  · have : a = b := (lexCmp_eq_zero_iff a b).mp h
    subst this
    exact hbc

theorem localeCompare_self (a : String) : localeCompare a a = 0 := lexCmp_self a.data

theorem localeCompare_eq_zero_iff (a b : String) : localeCompare a b = 0 ↔ a = b := by
  unfold localeCompare
  rw [lexCmp_eq_zero_iff]
  constructor
  · intro h
    exact String.ext h
  · intro h
    rw [h]

theorem localeCompare_lt_trans {a b c : String} :
    localeCompare a b < 0 → localeCompare b c < 0 → localeCompare a c < 0 :=
  lexCmp_lt_trans

theorem localeCompare_neg (a b : String) : localeCompare a b = -localeCompare b a :=
  lexCmp_neg a.data b.data

theorem cmpPV_lt_iff (x y : PV) : cmpPV x y < 0 ↔ NewerThan x y := by
  unfold cmpPV NewerThan
  split_ifs with h1 h2 h3 h4 h5 h6
  · constructor
    · intro h
      exact Or.inl (by omega)
    · rintro (h | ⟨h, -⟩ | ⟨h, -, -⟩ | ⟨h, -, -, -, -⟩ | ⟨h, -, -, -, -, -⟩) <;> omega
  · constructor
    · intro h
      exact Or.inr (Or.inl ⟨by omega, by omega⟩)
    · rintro (h | ⟨-, h⟩ | ⟨-, h, -⟩ | ⟨-, h, -, -, -⟩ | ⟨-, h, -, -, -, -⟩) <;> omega
  · constructor
    · intro h
      exact Or.inr (Or.inr (Or.inl ⟨by omega, by omega, by omega⟩))
    · rintro (h | ⟨-, h⟩ | ⟨-, -, h⟩ | ⟨-, -, h, -, -⟩ | ⟨-, -, h, -, -, -⟩) <;> omega
  · constructor
    · intro h
      exact absurd h (by norm_num)
    · rintro (h | ⟨-, h⟩ | ⟨-, -, h⟩ | ⟨-, -, -, hp, -⟩ | ⟨-, -, -, -, hp, -⟩)
      · omega
      · omega
      · omega
      · exact absurd hp h4.1
      · exact absurd h4.2 hp
  · constructor
    · intro _
      exact Or.inr (Or.inr (Or.inr (Or.inl ⟨by omega, by omega, by omega, h5.1, h5.2⟩)))
    · intro _
      norm_num
  · constructor
    · intro h
      exact Or.inr (Or.inr (Or.inr (Or.inr ⟨by omega, by omega, by omega, h6.1, h6.2, h⟩)))
    · rintro (h | ⟨-, h⟩ | ⟨-, -, h⟩ | ⟨-, -, -, hp, -⟩ | ⟨-, -, -, -, -, h⟩)
      · omega
      · omega
      · omega
      · exact absurd hp h6.1
      · exact h
  · constructor
    · intro h
      exact absurd h (by norm_num)
    · rintro (h | ⟨-, h⟩ | ⟨-, -, h⟩ | ⟨-, -, -, hp, hq⟩ | ⟨-, -, -, hp, hq, -⟩)
      · omega
      · omega
      · omega
      · exact absurd ⟨hp, hq⟩ h5
      · exact absurd ⟨hp, hq⟩ h6

theorem cmpPV_eq_zero_iff (x y : PV) : cmpPV x y = 0 ↔ x = y := by
  obtain ⟨ma, mi, pa, pr⟩ := x
  obtain ⟨mb, mib, pb, prb⟩ := y
  unfold cmpPV
  dsimp only
  split_ifs with h1 h2 h3 h4 h5 h6
  · constructor
    · intro h
      exact absurd (by omega : ma = mb) h1
    · intro h
      rw [PV.mk.injEq] at h
      exact absurd h.1 h1
  · constructor
    · intro h
      exact absurd (by omega : mi = mib) h2
    · intro h
      rw [PV.mk.injEq] at h
      exact absurd h.2.1 h2
  · constructor
    · intro h
      exact absurd (by omega : pa = pb) h3
    · intro h
      rw [PV.mk.injEq] at h
      exact absurd h.2.2.1 h3
  · constructor
    · intro h
      exact absurd h (by norm_num)
    · intro h
      rw [PV.mk.injEq] at h
      exact absurd (h.2.2.2 ▸ h4.2) h4.1
  · constructor
    · intro h
      exact absurd h (by norm_num)
    · intro h
      rw [PV.mk.injEq] at h
      exact absurd (h.2.2.2 ▸ h5.1) h5.2
  · rw [localeCompare_eq_zero_iff, PV.mk.injEq]
    constructor
    · intro h
      exact ⟨by omega, by omega, by omega, h⟩
    · intro h
      exact h.2.2.2
  · rw [PV.mk.injEq]
    have hpr : pr = "" := by
      by_cases hp : pr = ""
      · exact hp
      · by_cases hq : prb = ""
        · exact absurd ⟨hp, hq⟩ h4
        · exact absurd ⟨hp, hq⟩ h6
    have hprb : prb = "" := by
      by_cases hq : prb = ""
      · exact hq
      · exact absurd ⟨hpr, hq⟩ h5
    constructor
    · intro _
      exact ⟨by omega, by omega, by omega, hpr.trans hprb.symm⟩
    · intro _
      rfl

theorem NewerThan_trans {x y z : PV} (hxy : NewerThan x y) (hyz : NewerThan y z) :
    NewerThan x z := by
  unfold NewerThan at *
  rcases hxy with h | ⟨e1, h⟩ | ⟨e1, e2, h⟩ | ⟨e1, e2, e3, p1, p2⟩ | ⟨e1, e2, e3, p1, p2, hl⟩
  · rcases hyz with h' | ⟨f1, -⟩ | ⟨f1, -⟩ | ⟨f1, -⟩ | ⟨f1, -⟩ <;> exact Or.inl (by omega)
  · rcases hyz with h' | ⟨f1, h'⟩ | ⟨f1, f2, -⟩ | ⟨f1, f2, -⟩ | ⟨f1, f2, -⟩
    · exact Or.inl (by omega)
    · exact Or.inr (Or.inl ⟨by omega, by omega⟩)
    · exact Or.inr (Or.inl ⟨by omega, by omega⟩)
    · exact Or.inr (Or.inl ⟨by omega, by omega⟩)
    · exact Or.inr (Or.inl ⟨by omega, by omega⟩)
  · rcases hyz with h' | ⟨f1, h'⟩ | ⟨f1, f2, h'⟩ | ⟨f1, f2, f3, -⟩ | ⟨f1, f2, f3, -⟩
    · exact Or.inl (by omega)
    · exact Or.inr (Or.inl ⟨by omega, by omega⟩)
    · exact Or.inr (Or.inr (Or.inl ⟨by omega, by omega, by omega⟩))
    · exact Or.inr (Or.inr (Or.inl ⟨by omega, by omega, by omega⟩))
    · exact Or.inr (Or.inr (Or.inl ⟨by omega, by omega, by omega⟩))
  · rcases hyz with h' | ⟨f1, h'⟩ | ⟨f1, f2, h'⟩ | ⟨f1, f2, f3, q1, q2⟩ | ⟨f1, f2, f3, q1, q2, hl'⟩
    · exact Or.inl (by omega)
    · exact Or.inr (Or.inl ⟨by omega, by omega⟩)
    · exact Or.inr (Or.inr (Or.inl ⟨by omega, by omega, by omega⟩))
    · exact absurd q1 p2
    · exact Or.inr (Or.inr (Or.inr (Or.inl ⟨by omega, by omega, by omega, p1, q2⟩)))
  · rcases hyz with h' | ⟨f1, h'⟩ | ⟨f1, f2, h'⟩ | ⟨f1, f2, f3, q1, q2⟩ | ⟨f1, f2, f3, q1, q2, hl'⟩
    · exact Or.inl (by omega)
    · exact Or.inr (Or.inl ⟨by omega, by omega⟩)
    · exact Or.inr (Or.inr (Or.inl ⟨by omega, by omega, by omega⟩))
    · exact absurd q1 p2
    · exact Or.inr (Or.inr (Or.inr (Or.inr
        ⟨by omega, by omega, by omega, p1, q2, localeCompare_lt_trans hl hl'⟩)))

theorem NewerThan_total {x y : PV} (h : x ≠ y) : NewerThan x y ∨ NewerThan y x := by
  obtain ⟨ma, mi, pa, pr⟩ := x
  obtain ⟨mb, mib, pb, prb⟩ := y
  unfold NewerThan
  dsimp only
  by_cases h1 : ma = mb
  · by_cases h2 : mi = mib
    · by_cases h3 : pa = pb
      · by_cases h4 : pr = prb
        · exact absurd (by rw [h1, h2, h3, h4]) h
        · by_cases hp : pr = ""
          · have hq : prb ≠ "" := fun hq => h4 (hp.trans hq.symm)
            exact Or.inl (Or.inr (Or.inr (Or.inr (Or.inl ⟨h1, h2, h3, hp, hq⟩))))
          · by_cases hq : prb = ""
            · exact Or.inr (Or.inr (Or.inr (Or.inr (Or.inl
                ⟨h1.symm, h2.symm, h3.symm, hq, hp⟩))))
            · have hne : localeCompare pr prb ≠ 0 :=
                fun heq => h4 ((localeCompare_eq_zero_iff _ _).mp heq)
              rcases lt_trichotomy (localeCompare pr prb) 0 with hlt | heq | hgt
              · exact Or.inl (Or.inr (Or.inr (Or.inr (Or.inr ⟨h1, h2, h3, hp, hq, hlt⟩))))
              · exact absurd heq hne
              · have : localeCompare prb pr < 0 := by
                  rw [localeCompare_neg]
                  omega
                exact Or.inr (Or.inr (Or.inr (Or.inr (Or.inr
                  ⟨h1.symm, h2.symm, h3.symm, hq, hp, this⟩))))
      · rcases Nat.lt_or_ge pa pb with hlt | hge
        · exact Or.inr (Or.inr (Or.inr (Or.inl ⟨h1.symm, h2.symm, hlt⟩)))
        · exact Or.inl (Or.inr (Or.inr (Or.inl ⟨h1, h2, by omega⟩)))
    · rcases Nat.lt_or_ge mi mib with hlt | hge
      · exact Or.inr (Or.inr (Or.inl ⟨h1.symm, hlt⟩))
      · exact Or.inl (Or.inr (Or.inl ⟨h1, by omega⟩))
  · rcases Nat.lt_or_ge ma mb with hlt | hge
    · exact Or.inr (Or.inl hlt)
    · exact Or.inl (Or.inl (by omega))

theorem verLE_iff (a b : String) :
    verLE a b ↔ NewerThan (parseVersion a) (parseVersion b) ∨ parseVersion a = parseVersion b := by
  unfold verLE compareVersions
  constructor
  · intro h
    rcases lt_or_eq_of_le h with h' | h'
    · exact Or.inl ((cmpPV_lt_iff _ _).mp h')
    · exact Or.inr ((cmpPV_eq_zero_iff _ _).mp h')
  · rintro (h | h)
    · exact le_of_lt ((cmpPV_lt_iff _ _).mpr h)
    · exact le_of_eq ((cmpPV_eq_zero_iff _ _).mpr h)

instance : IsTotal String verLE :=
  ⟨fun a b => by
    by_cases h : verLE a b
    · exact Or.inl h
    · refine Or.inr ((verLE_iff b a).mpr ?_)
      rw [verLE_iff] at h
      push_neg at h
      obtain ⟨hn, hne⟩ := h
      rcases NewerThan_total (fun hh => hne hh) with h' | h'
      · exact absurd h' hn
      · exact Or.inl h'⟩

instance : IsTrans String verLE :=
  ⟨fun a b c hab hbc => by
    rw [verLE_iff] at hab hbc ⊢
    rcases hab with h | h
    · rcases hbc with h' | h'
      · exact Or.inl (NewerThan_trans h h')
      · exact Or.inl (h' ▸ h)
    · rcases hbc with h' | h'
      · exact Or.inl (h ▸ h')
      · exact Or.inr (h.trans h')⟩

/-! ## Prefix and digit lemmas -/

theorem isPrefixOf_iff_exists {l1 l2 : List Char} :
    l1.isPrefixOf l2 = true ↔ ∃ t, l1 ++ t = l2 := by
  induction l1 generalizing l2 with
  | nil => simp [List.isPrefixOf]
  | cons a as ih =>
    cases l2 with
    | nil => simp [List.isPrefixOf]
    | cons b bs =>
      simp only [List.isPrefixOf, Bool.and_eq_true, beq_iff_eq, ih, List.cons_append,
        List.cons.injEq]
      constructor
      · rintro ⟨rfl, t, rfl⟩
        exact ⟨t, rfl, rfl⟩
      · rintro ⟨t, rfl, rfl⟩
        exact ⟨rfl, t, rfl⟩

theorem digitsFold_pos (n : Nat) (ds : List Char) (hd : ∀ c ∈ ds, c.isDigit = true) :
    0 < ds.foldl (fun n c => n * 10 + (c.toNat - 48)) n ↔ 0 < n ∨ ∃ c ∈ ds, c ≠ '0' := by
  induction ds generalizing n with
  | nil => simp
  | cons c cs ih =>
    have hc := hd c (List.mem_cons_self _ _)
    have hbounds : 48 ≤ c.toNat ∧ c.toNat ≤ 57 := by
      simp [Char.isDigit] at hc
      exact ⟨hc.1, hc.2⟩
    have hzero : c = '0' ↔ c.toNat = 48 := by
      constructor
      · intro h
        rw [h]
        rfl
      · intro h
        have h2 := Char.ofNat_toNat c
        rw [h] at h2
        exact h2.symm
    rw [List.foldl_cons, ih _ (fun x hx => hd x (List.mem_cons_of_mem _ hx))]
    constructor
    · rintro (h | ⟨x, hx, hxne⟩)
      · by_cases hc0 : c = '0'
        · left
          have h48 : c.toNat = 48 := hzero.mp hc0
          omega
        · right
          exact ⟨c, List.mem_cons_self _ _, hc0⟩
      · right
        exact ⟨x, List.mem_cons_of_mem _ hx, hxne⟩
    · rintro (hn | ⟨x, hx, hxne⟩)
      · left
        omega
      · rcases List.mem_cons.mp hx with rfl | hx'
        · left
          have : x.toNat ≠ 48 := fun hh => hxne (hzero.mpr hh)
          omega
        · right
          exact ⟨x, hx', hxne⟩

theorem digitsToNat_pos_iff {ds : List Char} (hd : ∀ c ∈ ds, c.isDigit = true) :
    0 < digitsToNat ds ↔ ∃ c ∈ ds, c ≠ '0' := by
  unfold digitsToNat
  rw [digitsFold_pos 0 ds hd]
  simp

/-- Inversion of `parseCore`: the successful parse decomposes the input into
the three digit groups, the two separating dots and the remainder. -/
theorem parseCore_decomp {cs d1 d2 d3 rest : List Char}
    (h : parseCore cs = some (d1, d2, d3, rest)) :
    d1 = cs.takeWhile (·.isDigit) ∧ d1 ≠ [] ∧ (∀ c ∈ d1, c.isDigit = true)
    ∧ cs = d1 ++ '.' :: (d2 ++ '.' :: (d3 ++ rest)) := by
  unfold parseCore at h
  split at h
  · exact absurd h (by simp)
  · rename_i h1
    split at h
    · rename_i r2 heq2
      split at h
      · exact absurd h (by simp)
      · rename_i h2
        split at h
        · rename_i r4 heq4
          split at h
          · exact absurd h (by simp)
          · rename_i h3
            rw [Option.some.injEq, Prod.mk.injEq, Prod.mk.injEq, Prod.mk.injEq] at h
            obtain ⟨hd1, hd2, hd3, hrest⟩ := h
            subst hd1
            subst hd2
            subst hd3
            subst hrest
            have e1 := (List.takeWhile_append_dropWhile (p := fun c => c.isDigit) (l := cs)).symm
            rw [heq2] at e1
            have e2 := (List.takeWhile_append_dropWhile (p := fun c => c.isDigit) (l := r2)).symm
            rw [heq4] at e2
            have e3 := (List.takeWhile_append_dropWhile (p := fun c => c.isDigit) (l := r4)).symm
            refine ⟨rfl, ?_, ?_, ?_⟩
            · intro hnil
              apply h1
              rw [hnil]
              rfl
            · intro c hc
              exact List.mem_takeWhile_imp hc
            · conv_lhs => rw [e1]
              rw [List.append_cancel_left_eq, List.cons.injEq]
              refine ⟨rfl, ?_⟩
              conv_lhs => rw [e2]
              rw [List.append_cancel_left_eq, List.cons.injEq]
              refine ⟨rfl, ?_⟩
              exact e3
        · exact absurd h (by simp)
    · exact absurd h (by simp)

/-! ## C1: the `compareVersions` order -/

/-- **C1.** `compareVersions` realises the §4.2 version order: a version sorts
strictly earlier exactly when its parse is newer — larger numeric major, then
minor, then patch; at equal numerics a prerelease sorts after a stable version
and two prereleases compare lexicographically —, versions compare equal exactly
when their parses coincide, an unparseable string parses as
`(0, 0, 0, <raw string>)`, every sorted list is in descending §4.2 order, and
the spec's example list sorts as stated. -/
theorem claim_C1_version_ordering :
    (∀ a b : String, compareVersions a b < 0 ↔ NewerThan (parseVersion a) (parseVersion b))
    ∧ (∀ a b : String, compareVersions a b = 0 ↔ parseVersion a = parseVersion b)
    ∧ (∀ v : String, matchSemver v = none → parseVersion v = ⟨0, 0, 0, v⟩)
    ∧ (∀ l : List String, (sortVersions l).Sorted
        (fun a b => NewerThan (parseVersion a) (parseVersion b) ∨ parseVersion a = parseVersion b))
    ∧ sortVersions ["1.0.0", "1.0.0-beta", "2.0.0", "0.9.9"]
        = ["2.0.0", "1.0.0", "1.0.0-beta", "0.9.9"] := by
  refine ⟨fun a b => cmpPV_lt_iff _ _, fun a b => cmpPV_eq_zero_iff _ _, ?_, ?_, ?_⟩
  · intro v h
    unfold parseVersion
    rw [h]
  · intro l
    have hs := List.sorted_insertionSort verLE l
    exact List.Pairwise.imp (fun {a b} hab => (verLE_iff a b).mp hab) hs
  · decide

/-- Witness for C1 at concrete inputs. -/
theorem claim_C1_version_ordering_witness :
    parseVersion "not-a-version" = ⟨0, 0, 0, "not-a-version"⟩
    ∧ (compareVersions "2.0.0" "1.0.0" < 0 ↔
        NewerThan (parseVersion "2.0.0") (parseVersion "1.0.0")) :=
  ⟨claim_C1_version_ordering.2.2.1 "not-a-version" (by decide),
    claim_C1_version_ordering.1 "2.0.0" "1.0.0"⟩

/-! ## C2: which version the rendered document marks as latest -/

instance : IsTotal String lexDescLE :=
  ⟨fun a b => by
    unfold lexDescLE
    have h := localeCompare_neg a b
    omega⟩

instance : IsTrans String lexDescLE :=
  ⟨fun _ _ _ hab hbc => lexCmp_le_trans hbc hab⟩

/-- **C2 (counterexample).** In the group `{"1.0.0", "1.0.0-beta"}` the
rendered documents mark `"1.0.0-beta"` as latest — not `"1.0.0"`, the first
version under the §4.2 `compareVersions` order. -/
theorem claim_C2_counterexample :
    isLatestMark "1.0.0-beta" ["1.0.0", "1.0.0-beta"] = true
    ∧ isLatestMark "1.0.0" ["1.0.0", "1.0.0-beta"] = false
    ∧ (sortVersions ["1.0.0", "1.0.0-beta"]).head? = some "1.0.0" := by
  refine ⟨?_, ?_, ?_⟩ <;> decide

/-- **C2 (amended).** The version marked latest by `generateMarkdown` is the
maximum of the group's raw version strings under plain lexicographic
(`localeCompare`) order — not under `compareVersions`. -/
theorem claim_C2_marked_latest_is_lex_max (versions : List String) (h : versions ≠ []) :
    ∃ v, markedLatest versions = some v ∧ v ∈ versions
      ∧ ∀ w ∈ versions, localeCompare w v ≤ 0 := by
  have hs : (sortedVersionsDesc versions).Sorted lexDescLE :=
    List.sorted_insertionSort lexDescLE versions
  have hp : (sortedVersionsDesc versions).Perm versions :=
    List.perm_insertionSort lexDescLE versions
  cases hsort : sortedVersionsDesc versions with
  | nil =>
    rw [hsort] at hp
    exact absurd (List.Perm.eq_nil hp.symm) h
  | cons v t =>
    rw [hsort] at hs hp
    refine ⟨v, ?_, hp.subset (List.mem_cons_self v t), ?_⟩
    · rw [markedLatest, hsort]
      rfl
    · intro w hw
      have hw' : w ∈ v :: t := hp.symm.subset hw
      rcases List.mem_cons.mp hw' with rfl | hwt
      · have := localeCompare_self w
        omega
      · exact List.rel_of_sorted_cons hs w hwt

/-- Witness for the amended C2 on a concrete group. -/
theorem claim_C2_marked_latest_witness :
    ∃ v, markedLatest ["1.0.0", "2.0.0"] = some v ∧ v ∈ ["1.0.0", "2.0.0"]
      ∧ ∀ w ∈ ["1.0.0", "2.0.0"], localeCompare w v ≤ 0 :=
  claim_C2_marked_latest_is_lex_max ["1.0.0", "2.0.0"] (by decide)

/-! ## C4: path-shape filtering in discovery -/

/-- **C4 (counterexample).** A definition file at `a/b/canon.yml` has only two
directory segments between the root and the file, yet `extractSpecInfo`
accepts it — taking the file name itself as the version — and it contributes
a record; the claim says such a file is skipped. -/
theorem claim_C4_counterexample :
    extractSpecInfo ["a", "b", "canon.yml"] = some ⟨"a", "b", "canon.yml"⟩
    ∧ discoveredSpecInfos [["a", "b", "canon.yml"]] = [⟨"a", "b", "canon.yml"⟩] := by
  refine ⟨?_, ?_⟩ <;> decide

/-- **C4 (amended).** A path is skipped exactly when its relative path has
fewer than three components *including the file name* (fewer than two
directory segments); any longer path contributes a record whose triple is its
first three components — so `publisher/name/version/<file>` yields
`(publisher, name, version)`, but `a/b/<file>` is accepted with the file name
as version. -/
theorem claim_C4_path_filtering :
    (∀ parts : List String, parts.length < 3 → extractSpecInfo parts = none)
    ∧ (∀ (p n ver : String) (rest : List String),
        extractSpecInfo (p :: n :: ver :: rest) = some ⟨p, n, ver⟩)
    ∧ (∀ paths : List (List String),
        discoveredSpecInfos paths
          = (paths.filter (fun q => decide (3 ≤ q.length))).map
              (fun q => ⟨q.getD 0 "", q.getD 1 "", q.getD 2 ""⟩)) := by
  refine ⟨?_, ?_, ?_⟩
  · intro parts h
    unfold extractSpecInfo
    rw [if_neg (by omega)]
  · intro p n ver rest
    unfold extractSpecInfo
    rw [if_pos (by simp only [List.length_cons]; omega)]
    rfl
  · intro paths
    induction paths with
    | nil => rfl
    | cons q qs ih =>
      by_cases h : 3 ≤ q.length
      · rw [discoveredSpecInfos, List.filterMap_cons]
        rw [show extractSpecInfo q = some ⟨q.getD 0 "", q.getD 1 "", q.getD 2 ""⟩ from
          by unfold extractSpecInfo; rw [if_pos h]]
        rw [List.filter_cons_of_pos (by simpa using h), List.map_cons]
        exact congrArg _ ih
      · rw [discoveredSpecInfos, List.filterMap_cons]
        rw [show extractSpecInfo q = none from by unfold extractSpecInfo; rw [if_neg h]]
        rw [List.filter_cons_of_neg (by simpa using h)]
        exact ih

/-- Witness for the amended C4 at concrete paths. -/
theorem claim_C4_path_filtering_witness :
    extractSpecInfo ["canon.yml"] = none
    ∧ extractSpecInfo ["pub", "name", "1.0.0", "canon.yml"] = some ⟨"pub", "name", "1.0.0"⟩ :=
  ⟨claim_C4_path_filtering.1 ["canon.yml"] (by decide),
    claim_C4_path_filtering.2.1 "pub" "name" "1.0.0" ["canon.yml"]⟩

/-! ## C7: deterministic group ordering -/

theorem sidebarGroupCompare_neg (a b : SidebarGroup) :
    sidebarGroupCompare a b = -sidebarGroupCompare b a := by
  unfold sidebarGroupCompare
  cases a.pageOrder? <;> cases b.pageOrder? <;> dsimp only <;>
    first
      | exact localeCompare_neg _ _
      | norm_num

instance : IsTotal SidebarGroup sidebarGroupLE :=
  ⟨fun a b => by
    unfold sidebarGroupLE
    have h := sidebarGroupCompare_neg a b
    omega⟩

instance : IsTrans SidebarGroup sidebarGroupLE :=
  ⟨fun a b c hab hbc => by
    unfold sidebarGroupLE sidebarGroupCompare at hab hbc ⊢
    cases ha : a.pageOrder? <;> cases hb : b.pageOrder? <;> cases hc : c.pageOrder? <;>
      rw [ha, hb] at hab <;> rw [hb, hc] at hbc <;> dsimp only at hab hbc ⊢ <;>
      first
        | exact lexCmp_le_trans hab hbc
        | omega⟩

/-- **C7.** The group comparator used for navigation and index ordering:
smaller `page_order` sorts first when both latest records carry one; a group
with `page_order` sorts before one without; two groups without fall back to
lexicographic comparison of names; and the comparator is antisymmetric and
induces a total, transitive — hence deterministic — order, so sorting always
yields a sorted permutation. -/
theorem claim_C7_group_ordering :
    (∀ a b : SidebarGroup, ∀ x y : Int, a.pageOrder? = some x → b.pageOrder? = some y →
      x < y → sidebarGroupCompare a b < 0)
    ∧ (∀ a b : SidebarGroup, ∀ x : Int, a.pageOrder? = some x → b.pageOrder? = none →
      sidebarGroupCompare a b < 0)
    ∧ (∀ a b : SidebarGroup, a.pageOrder? = none → b.pageOrder? = none →
      sidebarGroupCompare a b = localeCompare a.specName b.specName)
    ∧ (∀ a b : SidebarGroup, sidebarGroupCompare a b = -sidebarGroupCompare b a)
    ∧ (∀ gs : List SidebarGroup, (sortSidebarGroups gs).Sorted sidebarGroupLE)
    ∧ (∀ gs : List SidebarGroup, (sortSidebarGroups gs).Perm gs) := by
  refine ⟨?_, ?_, ?_, sidebarGroupCompare_neg, ?_, ?_⟩
  · intro a b x y hx hy hlt
    unfold sidebarGroupCompare
    rw [hx, hy]
    dsimp only
    omega
  · intro a b x hx hy
    unfold sidebarGroupCompare
    rw [hx, hy]
    dsimp only
    norm_num
  · intro a b hx hy
    unfold sidebarGroupCompare
    rw [hx, hy]
  · intro gs
    exact List.sorted_insertionSort sidebarGroupLE gs
  · intro gs
    exact List.perm_insertionSort sidebarGroupLE gs

/-- Witness for C7 on concrete groups. -/
theorem claim_C7_group_ordering_witness :
    sidebarGroupCompare ⟨"zeta", some 2⟩ ⟨"alpha", some 5⟩ < 0
    ∧ sidebarGroupCompare ⟨"zeta", some 5⟩ ⟨"alpha", none⟩ < 0
    ∧ sidebarGroupCompare ⟨"alpha", none⟩ ⟨"beta", none⟩
        = localeCompare "alpha" "beta" :=
  ⟨claim_C7_group_ordering.1 ⟨"zeta", some 2⟩ ⟨"alpha", some 5⟩ 2 5 rfl rfl (by norm_num),
    claim_C7_group_ordering.2.1 ⟨"zeta", some 5⟩ ⟨"alpha", none⟩ 5 rfl rfl,
    claim_C7_group_ordering.2.2.1 ⟨"alpha", none⟩ ⟨"beta", none⟩ rfl rfl⟩


/-! ## C10: the two stability tests -/

/-- **C10 (counterexample).** On `"00.1.0"` the badge's test reports stable
(the string matches `\d+\.\d+\.\d+` and does not start with `"0."`),
while `isStableVersion` reports unstable (`parseInt("00")` is `0`). -/
theorem claim_C10_counterexample :
    badgeIsStable "00.1.0" = true ∧ isStableVersion "00.1.0" = false
    ∧ multiZeroMajor "00.1.0" = true := by
  refine ⟨?_, ?_, ?_⟩ <;> decide

/-- **C10 (amended).** `isStableVersion v` holds exactly when `v` parses as
`MAJOR.MINOR.PATCH[-PRERELEASE]` with numeric major positive and no prerelease
group (so the spec's three examples evaluate as stated), and the badge's
independent test agrees with `isStableVersion` on every version string except
those whose major segment is a multi-digit run of zeros (`multiZeroMajor`). -/
theorem claim_C10_stability :
    (∀ v : String, isStableVersion v = true ↔
      ∃ m, matchSemver v = some m ∧ 0 < digitsToNat m.majorDigits ∧ m.pre = none)
    ∧ isStableVersion "1.0.0" = true
    ∧ isStableVersion "0.9.0" = false
    ∧ isStableVersion "1.0.0-rc1" = false
    ∧ (∀ v : String, multiZeroMajor v = false → badgeIsStable v = isStableVersion v) := by
  refine ⟨?_, by decide, by decide, by decide, ?_⟩
  · intro v
    unfold isStableVersion
    cases hm : matchSemver v with
    | none => simp
    | some m =>
      simp only [Bool.and_eq_true, decide_eq_true_eq, Option.isNone_iff_eq_none,
        Option.some.injEq]
      constructor
      · rintro ⟨h1, h2⟩
        exact ⟨m, rfl, h1, h2⟩
      · rintro ⟨m', hm', h1, h2⟩
        cases hm'
        exact ⟨h1, h2⟩
  · intro v hmz
    cases hpc : parseCore v.data with
    | none =>
      have hb : badgeIsStable v = false := by
        simp [badgeIsStable, plainSemverMatch, hpc]
      have hi : isStableVersion v = false := by
        simp [isStableVersion, matchSemver, hpc]
      rw [hb, hi]
    | some quad =>
      obtain ⟨d1, d2, d3, rest⟩ := quad
      obtain ⟨hd1eq, hd1ne, hd1dig, hdecomp⟩ := parseCore_decomp hpc
      rcases rest with _ | ⟨c, t⟩
      · have hm : matchSemver v = some ⟨d1, d2, d3, none⟩ := by
          simp [matchSemver, hpc]
        have hplain : plainSemverMatch v = true := by
          simp [plainSemverMatch, hpc]
        have hstable : isStableVersion v = decide (0 < digitsToNat d1) := by
          simp [isStableVersion, hm]
        have h0dig : ('0' : Char).isDigit = true := rfl
        have hdotdig : ('.' : Char).isDigit = false := rfl
        have hstart : strStartsWith v "0." = true ↔ d1 = ['0'] := by
          unfold strStartsWith
          rw [show "0.".data = ['0', '.'] from rfl, isPrefixOf_iff_exists]
          constructor
          · rintro ⟨tail, htail⟩
            rw [hd1eq, ← htail]
            simp [List.cons_append, List.takeWhile_cons, h0dig, hdotdig]
          · intro h1
            refine ⟨d2 ++ '.' :: (d3 ++ []), ?_⟩
            rw [hdecomp, h1]
            rfl
        by_cases hz : d1 = ['0']
        · have h1 : strStartsWith v "0." = true := hstart.mpr hz
          have h2 : digitsToNat d1 = 0 := by
            rw [hz]
            rfl
          rw [hstable, h2]
          simp [badgeIsStable, hplain, h1]
        · by_cases hall : ∀ c ∈ d1, c = '0'
          · exfalso
            have hmz' : multiZeroMajor v = true := by
              have hlen : 2 ≤ d1.length := by
                rcases d1 with _ | ⟨c0, _ | ⟨c1, t1⟩⟩
                · exact absurd rfl hd1ne
                · exact absurd (by rw [hall c0 (List.mem_cons_self _ _)]) hz
                · simp
              simp only [multiZeroMajor, hpc, List.isEmpty_nil, Bool.true_and,
                Bool.and_eq_true, decide_eq_true_eq, List.all_eq_true]
              exact ⟨hlen, fun x hx => by simpa using hall x hx⟩
            rw [hmz'] at hmz
            exact absurd hmz (by simp)
          · push_neg at hall
            obtain ⟨cx, hcx, hcxne⟩ := hall
            have hpos : 0 < digitsToNat d1 := (digitsToNat_pos_iff hd1dig).mpr ⟨cx, hcx, hcxne⟩
            have hns : strStartsWith v "0." = false := by
              cases hsw : strStartsWith v "0." with
              | false => rfl
              | true => exact absurd (hstart.mp hsw) hz
            rw [hstable]
            simp [badgeIsStable, hplain, hns, hpos]
      · have hplain : plainSemverMatch v = false := by
          simp [plainSemverMatch, hpc]
        have hb : badgeIsStable v = false := by
          simp [badgeIsStable, hplain]
        by_cases hc : c = '-'
        · subst hc
          rcases t with _ | ⟨c2, t2⟩
          · have hm : matchSemver v = none := by
              simp [matchSemver, hpc]
            rw [hb]
            simp [isStableVersion, hm]
          · have hm : matchSemver v = some ⟨d1, d2, d3, some (c2 :: t2)⟩ := by
              simp [matchSemver, hpc]
            rw [hb]
            simp [isStableVersion, hm]
        · have hm : matchSemver v = none := by
            simp [matchSemver, hpc, hc]
          rw [hb]
          simp [isStableVersion, hm]

/-- Witness for the amended C10 at a concrete input. -/
theorem claim_C10_stability_witness :
    badgeIsStable "1.2.3" = isStableVersion "1.2.3" :=
  claim_C10_stability.2.2.2.2 "1.2.3" (by decide)


/-! ## C6: bounded, cycle-flagging hierarchy walk -/

/-- **C6.** The derives-from chain walk terminates within the fixed 5-hop
bound (it never produces more entries than its remaining fuel); whenever the
current type reference was already visited, the walk stops right there and
flags that reference as circular; reaching a meta-type reference also stops
the walk; and on the concrete two-cycle `pub/a@1 → pub/b@1 → pub/a@1` the
walk produces exactly the two nodes followed by a circular flag. -/
theorem claim_C6_cycle_termination :
    (∀ (th : List (String × String)) (fuel : Nat) (visited : List String) (current : String),
      (walkChain th fuel visited current).length ≤ fuel)
    ∧ (∀ (th : List (String × String)) (fuel : Nat) (visited : List String) (current : String),
        0 < fuel → isMetaTypeRef current = false → current ∈ visited →
        walkChain th fuel visited current = [ChainEntry.circular current])
    ∧ (∀ (th : List (String × String)) (fuel : Nat) (visited : List String) (current : String),
        0 < fuel → isMetaTypeRef current = true →
        walkChain th fuel visited current = [ChainEntry.meta current])
    ∧ walkChain [("a@1", "pub/b@1"), ("b@1", "pub/a@1")] 5 [] "pub/a@1"
        = [ChainEntry.node "pub/a@1" true, ChainEntry.node "pub/b@1" true,
            ChainEntry.circular "pub/a@1"] := by
  refine ⟨?_, ?_, ?_, by decide⟩
  · intro th fuel
    induction fuel with
    | zero =>
      intro visited current
      simp [walkChain]
    | succ n ih =>
      intro visited current
      unfold walkChain
      split
      · simp
      split
      · simp
      split
      · simp
      split
      · simp
      split
      · simp only [List.length_cons]
        exact Nat.succ_le_succ (ih _ _)
      · simp
  · intro th fuel visited current hf hmeta hmem
    cases fuel with
    | zero => omega
    | succ n =>
      unfold walkChain
      rw [if_neg (by simp [hmeta]), if_pos hmem]
  · intro th fuel visited current hf hmeta
    cases fuel with
    | zero => omega
    | succ n =>
      unfold walkChain
      rw [if_pos hmeta]

/-- Witness for C6 at concrete inputs. -/
theorem claim_C6_cycle_termination_witness :
    walkChain [] 5 ["x"] "x" = [ChainEntry.circular "x"]
    ∧ walkChain [] 5 [] "canon-protocol.org/type@1.0.0"
        = [ChainEntry.meta "canon-protocol.org/type@1.0.0"]
    ∧ (walkChain [("a@1", "pub/b@1"), ("b@1", "pub/a@1")] 5 [] "pub/a@1").length ≤ 5 :=
  ⟨claim_C6_cycle_termination.2.1 [] 5 ["x"] "x" (by norm_num) (by decide) (by decide),
    claim_C6_cycle_termination.2.2.1 [] 5 [] "canon-protocol.org/type@1.0.0"
      (by norm_num) (by decide),
    claim_C6_cycle_termination.1 [("a@1", "pub/b@1"), ("b@1", "pub/a@1")] 5 [] "pub/a@1"⟩


/-! ## C5: field attribution -/

theorem find?_first {α : Type} {p : α → Bool} {l : List α} {u : α}
    (h : List.find? p l = some u) :
    ∃ pre post, l = pre ++ u :: post ∧ p u = true ∧ ∀ w ∈ pre, p w = false := by
  induction l with
  | nil => simp [List.find?] at h
  | cons a rest ih =>
    cases hpa : p a with
    | true =>
      have ha : a = u := by
        simp only [List.find?, hpa] at h
        exact Option.some.inj h
      subst ha
      exact ⟨[], rest, rfl, hpa, by simp⟩
    | false =>
      have h' : List.find? p rest = some u := by
        simpa only [List.find?, hpa] using h
      obtain ⟨pre, post, rfl, hu, hpre⟩ := ih h'
      refine ⟨a :: pre, post, rfl, hu, ?_⟩
      intro w hw
      rcases List.mem_cons.mp hw with rfl | hw'
      · exact hpa
      · exact hpre w hw'

theorem mem_specContentFields {spec : InstSpec} {f : String} :
    f ∈ specContentFields spec ↔
      f ∈ spec.keys ∧ f ∉ protocolFields ∧ strStartsWith f "_" = false := by
  unfold specContentFields
  rw [List.mem_filter]
  simp

theorem attributeField_base_iff (sk : List String) (ts : TypeSchemas) (incl : List String)
    (f : String) :
    attributeField sk ts incl f = .base ↔ sk.contains f = true := by
  unfold attributeField
  by_cases hc : sk.contains f = true
  · rw [if_pos hc]
    simp only [hc, iff_true]
  · rw [if_neg hc]
    constructor
    · intro h
      split at h <;> exact absurd h (by simp)
    · intro h
      exact absurd h hc

theorem attributeField_composed_iff (sk : List String) (ts : TypeSchemas) (incl : List String)
    (f u : String) :
    attributeField sk ts incl f = .composed u
      ↔ sk.contains f = false
        ∧ List.find? (fun w => includeDefinesField ts w f) incl = some u := by
  unfold attributeField
  by_cases hc : sk.contains f = true
  · rw [if_pos hc]
    constructor
    · intro h
      exact absurd h (by simp)
    · rintro ⟨hfalse, -⟩
      rw [hc] at hfalse
      exact absurd hfalse (by simp)
  · rw [if_neg hc]
    have hc' : sk.contains f = false := by
      simpa using hc
    cases hf : List.find? (fun w => includeDefinesField ts w f) incl with
    | none =>
      dsimp only
      constructor
      · intro h
        exact absurd h (by simp)
      · rintro ⟨-, hsome⟩
        exact absurd hsome (by simp)
    | some w =>
      dsimp only
      constructor
      · intro h
        injection h with h'
        exact ⟨hc', by rw [h']⟩
      · rintro ⟨-, hsome⟩
        have hw : w = u := Option.some.inj hsome
        rw [hw]

theorem addComposed_mem (comp : List (String × List String)) (u0 g u f : String) :
    compMem (addComposed comp u0 g) u f ↔ compMem comp u f ∨ (u = u0 ∧ f = g) := by
  induction comp with
  | nil =>
    unfold addComposed compMem
    constructor
    · rintro ⟨fs, hmem, hf⟩
      simp only [List.mem_singleton, Prod.mk.injEq] at hmem
      rw [hmem.2] at hf
      simp only [List.mem_singleton] at hf
      exact Or.inr ⟨hmem.1, hf⟩
    · rintro (⟨fs, hmem, -⟩ | ⟨hu, hf⟩)
      · exact absurd hmem (List.not_mem_nil _)
      · exact ⟨[g], by simp [hu], by simp [hf]⟩
  | cons kv rest ih =>
    obtain ⟨k, fs0⟩ := kv
    unfold addComposed
    unfold compMem at ih ⊢
    by_cases hk : k = u0
    · rw [if_pos hk]
      constructor
      · rintro ⟨fs, hmem, hf⟩
        rcases List.mem_cons.mp hmem with heq | hmem2
        · rw [Prod.mk.injEq] at heq
          rw [heq.2] at hf
          rw [List.mem_append] at hf
          rcases hf with hf | hf
          · exact Or.inl ⟨fs0, by rw [heq.1]; exact List.mem_cons_self _ _, hf⟩
          · simp only [List.mem_singleton] at hf
            exact Or.inr ⟨heq.1.trans hk, hf⟩
        · exact Or.inl ⟨fs, List.mem_cons_of_mem _ hmem2, hf⟩
      · rintro (⟨fs, hmem, hf⟩ | ⟨hu, hf⟩)
        · rcases List.mem_cons.mp hmem with heq | hmem2
          · rw [Prod.mk.injEq] at heq
            refine ⟨fs0 ++ [g], ?_, ?_⟩
            · rw [heq.1]
              exact List.mem_cons_self _ _
            · rw [List.mem_append]
              exact Or.inl (heq.2 ▸ hf)
          · exact ⟨fs, List.mem_cons_of_mem _ hmem2, hf⟩
        · refine ⟨fs0 ++ [g], ?_, ?_⟩
          · rw [hu, ← hk]
            exact List.mem_cons_self _ _
          · rw [List.mem_append]
            exact Or.inr (by simp [hf])
    · rw [if_neg hk]
      constructor
      · rintro ⟨fs, hmem, hf⟩
        rcases List.mem_cons.mp hmem with heq | hmem2
        · exact Or.inl ⟨fs, List.mem_cons_self _ _ |> (heq ▸ ·), hf⟩
        · rcases ih.mp ⟨fs, hmem2, hf⟩ with ⟨fs2, hm2, hf2⟩ | h
          · exact Or.inl ⟨fs2, List.mem_cons_of_mem _ hm2, hf2⟩
          · exact Or.inr h
      · rintro (⟨fs, hmem, hf⟩ | ⟨hu, hf⟩)
        · rcases List.mem_cons.mp hmem with heq | hmem2
          · exact ⟨fs, heq ▸ List.mem_cons_self _ _, hf⟩
          · obtain ⟨fs2, hm2, hf2⟩ := ih.mpr (Or.inl ⟨fs, hmem2, hf⟩)
            exact ⟨fs2, List.mem_cons_of_mem _ hm2, hf2⟩
        · obtain ⟨fs2, hm2, hf2⟩ := ih.mpr (Or.inr ⟨hu, hf⟩)
          exact ⟨fs2, List.mem_cons_of_mem _ hm2, hf2⟩

theorem attributeFieldsGo_fst (sk : List String) (ts : TypeSchemas) (incl : List String)
    (fields : List String) :
    ∀ acc, (attributeFieldsGo sk ts incl acc fields).1
      = acc.1 ++ fields.filter (fun f => sk.contains f) := by
  induction fields with
  | nil =>
    intro acc
    simp [attributeFieldsGo]
  | cons g rest ih =>
    intro acc
    unfold attributeFieldsGo
    cases hg : attributeField sk ts incl g with
    | base =>
      have hbase : sk.contains g = true := (attributeField_base_iff _ _ _ _).mp hg
      dsimp only
      rw [ih, List.filter_cons_of_pos (by simpa using hbase)]
      simp [List.append_assoc]
    | composed u =>
      have hbase : sk.contains g = false := ((attributeField_composed_iff _ _ _ _ _).mp hg).1
      dsimp only
      rw [ih, List.filter_cons_of_neg (by simpa using hbase)]
    | unattributed =>
      have hbase : sk.contains g = false := by
        cases hcc : sk.contains g with
        | false => rfl
        | true =>
          have hb := (attributeField_base_iff sk ts incl g).mpr hcc
          rw [hg] at hb
          exact absurd hb (by simp)
      dsimp only
      rw [ih, List.filter_cons_of_neg (by simpa using hbase)]

theorem attributeFieldsGo_comp (sk : List String) (ts : TypeSchemas) (incl : List String)
    (fields : List String) :
    ∀ acc u f, compMem (attributeFieldsGo sk ts incl acc fields).2 u f
      ↔ compMem acc.2 u f ∨ (f ∈ fields ∧ attributeField sk ts incl f = .composed u) := by
  induction fields with
  | nil =>
    intro acc u f
    simp [attributeFieldsGo]
  | cons g rest ih =>
    intro acc u f
    unfold attributeFieldsGo
    cases hg : attributeField sk ts incl g with
    | base =>
      dsimp only
      rw [ih]
      constructor
      · rintro (h | ⟨hf, ha⟩)
        · exact Or.inl h
        · exact Or.inr ⟨List.mem_cons_of_mem _ hf, ha⟩
      · rintro (h | ⟨hf, ha⟩)
        · exact Or.inl h
        · rcases List.mem_cons.mp hf with rfl | hf'
          · rw [hg] at ha
            exact absurd ha (by simp)
          · exact Or.inr ⟨hf', ha⟩
    | composed u0 =>
      dsimp only
      rw [ih, addComposed_mem]
      constructor
      · rintro ((h | ⟨rfl, rfl⟩) | ⟨hf, ha⟩)
        · exact Or.inl h
        · exact Or.inr ⟨List.mem_cons_self _ _, hg⟩
        · exact Or.inr ⟨List.mem_cons_of_mem _ hf, ha⟩
      · rintro (h | ⟨hf, ha⟩)
        · exact Or.inl (Or.inl h)
        · rcases List.mem_cons.mp hf with rfl | hf'
          · rw [hg] at ha
            have hu : u = u0 := by
              injection ha with h'
              exact h'.symm
            exact Or.inl (Or.inr ⟨hu, rfl⟩)
          · exact Or.inr ⟨hf', ha⟩
    | unattributed =>
      dsimp only
      rw [ih]
      constructor
      · rintro (h | ⟨hf, ha⟩)
        · exact Or.inl h
        · exact Or.inr ⟨List.mem_cons_of_mem _ hf, ha⟩
      · rintro (h | ⟨hf, ha⟩)
        · exact Or.inl h
        · rcases List.mem_cons.mp hf with rfl | hf'
          · rw [hg] at ha
            exact absurd ha (by simp)
          · exact Or.inr ⟨hf', ha⟩

/-- **C5.** Under the guards of `generateSpecContentSection` (declared
non-meta type with a known schema), the attribution of an instance record's
fields: `baseTypeFields` is exactly the record's content fields — the
top-level keys that are neither protocol-reserved nor underscore-prefixed —
whose name the base type's schema defines, in order; every composed-attributed
field is a content field absent from the base schema and attributed to the
*first* include, in list order, whose schema defines it; and nothing outside
the content fields is ever attributed. -/
theorem claim_C5_field_attribution
    (spec : InstSpec) (ts : TypeSchemas) (t : String) (b ver : List Char)
    (schemaKeys base : List String) (comp : List (String × List String))
    (htype : spec.type? = some t)
    (hmeta : isMetaTypeRef t = false)
    (hparse : findBaseVer t.data = some (b, ver))
    (hlookup : lookupSchema ts (String.mk b ++ "@" ++ String.mk ver) = some (some schemaKeys))
    (hres : generateSpecContentAttribution spec ts = some (base, comp)) :
    base = (specContentFields spec).filter (fun f => schemaKeys.contains f)
    ∧ (∀ f ∈ base, f ∈ spec.keys ∧ f ∉ protocolFields ∧ strStartsWith f "_" = false)
    ∧ (∀ u f, compMem comp u f →
        f ∈ spec.keys ∧ f ∉ protocolFields ∧ strStartsWith f "_" = false
        ∧ schemaKeys.contains f = false
        ∧ ∃ pre post, spec.includes?.getD [] = pre ++ u :: post
            ∧ includeDefinesField ts u f = true
            ∧ ∀ w ∈ pre, includeDefinesField ts w f = false) := by
  unfold generateSpecContentAttribution at hres
  rw [htype] at hres
  dsimp only at hres
  rw [if_neg (by simp [hmeta])] at hres
  rw [hparse] at hres
  dsimp only at hres
  rw [hlookup] at hres
  dsimp only at hres
  split at hres
  · exact absurd hres (by simp)
  · rw [Option.some.injEq] at hres
    have hfst : base = (attributeFields schemaKeys ts (spec.includes?.getD [])
        (specContentFields spec)).1 := by
      rw [hres]
    have hsnd : comp = (attributeFields schemaKeys ts (spec.includes?.getD [])
        (specContentFields spec)).2 := by
      rw [hres]
    have hbase : base = (specContentFields spec).filter (fun f => schemaKeys.contains f) := by
      rw [hfst]
      unfold attributeFields
      rw [attributeFieldsGo_fst]
      simp
    refine ⟨hbase, ?_, ?_⟩
    · intro f hf
      rw [hbase, List.mem_filter] at hf
      exact mem_specContentFields.mp hf.1
    · intro u f hcm
      rw [hsnd] at hcm
      unfold attributeFields at hcm
      rw [attributeFieldsGo_comp] at hcm
      rcases hcm with h | ⟨hf, ha⟩
      · obtain ⟨fs, hmem, -⟩ := h
        exact absurd hmem (List.not_mem_nil _)
      · obtain ⟨hcont, hfind⟩ := (attributeField_composed_iff _ _ _ _ _).mp ha
        obtain ⟨hk, hp, hs⟩ := mem_specContentFields.mp hf
        obtain ⟨pre, post, hsplit, hu, hpre⟩ := find?_first hfind
        exact ⟨hk, hp, hs, hcont, pre, post, hsplit, hu, hpre⟩

/-- Witness for C5: a record with a base type defining `title` and one
included type defining `tags`, setting both fields, attributes `title` to the
base type and `tags` to the composed type, with no field unattributed. -/
theorem claim_C5_field_attribution_witness :
    generateSpecContentAttribution
        ⟨["canon", "type", "metadata", "title", "tags", "_info"],
          some "pub/doc@1.0.0", some ["pub/taggable@1.0.0"]⟩
        [("pub/doc@1.0.0", some ["title"]), ("pub/taggable@1.0.0", some ["tags"])]
      = some (["title"], [("pub/taggable@1.0.0", ["tags"])])
    ∧ (["title"] : List String)
      = (specContentFields
          ⟨["canon", "type", "metadata", "title", "tags", "_info"],
            some "pub/doc@1.0.0", some ["pub/taggable@1.0.0"]⟩).filter
          (fun f => (["title"] : List String).contains f) :=
  ⟨by decide,
    (claim_C5_field_attribution
      ⟨["canon", "type", "metadata", "title", "tags", "_info"],
        some "pub/doc@1.0.0", some ["pub/taggable@1.0.0"]⟩
      [("pub/doc@1.0.0", some ["title"]), ("pub/taggable@1.0.0", some ["tags"])]
      "pub/doc@1.0.0" "pub/doc".data "1.0.0".data
      ["title"] ["title"] [("pub/taggable@1.0.0", ["tags"])]
      rfl (by decide) (by decide) (by decide) (by decide)).1⟩

/-! ## Theorems: example synthesis (C8) -/

/-- C8 (amended): example synthesis returns the node's explicit example if
present, else its explicit default, else a type-driven value: for strings the
first enum value if enumerated, else the fixed literal for formats
uri/url/email/date/date-time, else the literal "1.0.0" when a declared
pattern contains the two-character sequence backslash-d, else a generic
placeholder; for number/integer the declared minimum, else the maximum, else
1; for booleans true; for arrays a single-element array wrapping one
synthesized item (empty when there is no item schema or the item synthesizes
to nothing); for objects one field per declared property whose own synthesis
yields a value, restricted to required properties once depth reaches the
threshold; for unrecognised types a reference comment if a target is
referenced, else synthesis from the first oneOf/anyOf alternative; and
recursion beyond the fixed depth bound yields no value. -/
theorem claim_C8_example_synthesis :
    (∀ d, generateExampleFromSchema none d = none)
    ∧ (∀ s d, 3 < d → generateExampleFromSchema (some s) d = none)
    ∧ (∀ s d v, d ≤ 3 → s.example? = some v →
        generateExampleFromSchema (some s) d = some v)
    ∧ (∀ s d v, d ≤ 3 → s.example? = none → s.default? = some v →
        generateExampleFromSchema (some s) d = some v)
    ∧ (∀ s d es, d ≤ 3 → s.example? = none → s.default? = none →
        s.type? = some "string" → s.enum? = some es →
        generateExampleFromSchema (some s) d = es.head?)
    ∧ (∀ s d, d ≤ 3 → s.example? = none → s.default? = none →
        s.type? = some "string" → s.enum? = none →
        (s.format? = some "uri" ∨ s.format? = some "url") →
        generateExampleFromSchema (some s) d = some (.str "https://example.com"))
    ∧ (∀ s d, d ≤ 3 → s.example? = none → s.default? = none →
        s.type? = some "string" → s.enum? = none → s.format? = some "email" →
        generateExampleFromSchema (some s) d = some (.str "user@example.com"))
    ∧ (∀ s d, d ≤ 3 → s.example? = none → s.default? = none →
        s.type? = some "string" → s.enum? = none → s.format? = some "date" →
        generateExampleFromSchema (some s) d = some (.str "2024-01-01"))
    ∧ (∀ s d, d ≤ 3 → s.example? = none → s.default? = none →
        s.type? = some "string" → s.enum? = none → s.format? = some "date-time" →
        generateExampleFromSchema (some s) d = some (.str "2024-01-01T00:00:00Z"))
    ∧ (∀ s d p, d ≤ 3 → s.example? = none → s.default? = none →
        s.type? = some "string" → s.enum? = none → s.format? = none →
        s.pattern? = some p →
        generateExampleFromSchema (some s) d =
          some (.str (if strIncludes p "\\d" then "1.0.0" else "example-string")))
    ∧ (∀ s d, d ≤ 3 → s.example? = none → s.default? = none →
        s.type? = some "string" → s.enum? = none → s.format? = none →
        s.pattern? = none →
        generateExampleFromSchema (some s) d = some (.str "example-string"))
    ∧ (∀ s d m, d ≤ 3 → s.example? = none → s.default? = none →
        (s.type? = some "number" ∨ s.type? = some "integer") →
        s.minimum? = some m →
        generateExampleFromSchema (some s) d = some (.num m))
    ∧ (∀ s d m, d ≤ 3 → s.example? = none → s.default? = none →
        (s.type? = some "number" ∨ s.type? = some "integer") →
        s.minimum? = none → s.maximum? = some m →
        generateExampleFromSchema (some s) d = some (.num m))
    ∧ (∀ s d, d ≤ 3 → s.example? = none → s.default? = none →
        (s.type? = some "number" ∨ s.type? = some "integer") →
        s.minimum? = none → s.maximum? = none →
        generateExampleFromSchema (some s) d = some (.num 1))
    ∧ (∀ s d, d ≤ 3 → s.example? = none → s.default? = none →
        s.type? = some "boolean" →
        generateExampleFromSchema (some s) d = some (.bool true))
    ∧ (∀ s d it, d ≤ 3 → s.example? = none → s.default? = none →
        s.type? = some "array" → s.items? = some it →
        generateExampleFromSchema (some s) d =
          some (.arr (generateExampleFromSchema (some it) (d + 1)).toList))
    ∧ (∀ s d, d ≤ 3 → s.example? = none → s.default? = none →
        s.type? = some "array" → s.items? = none →
        generateExampleFromSchema (some s) d = some (.arr []))
    ∧ (∀ s d props, d ≤ 3 → s.example? = none → s.default? = none →
        s.type? = some "object" → s.properties? = some props →
        generateExampleFromSchema (some s) d =
          some (.obj (genObjectProps props (s.required?.getD []) (d + 1))))
    ∧ (∀ s d, d ≤ 3 → s.example? = none → s.default? = none →
        s.type? = some "object" → s.properties? = none →
        generateExampleFromSchema (some s) d = some (.obj []))
    ∧ (∀ props req cd n v, (n, v) ∈ genObjectProps props req cd →
        n ∈ props.map Prod.fst ∧ (n ∈ req ∨ cd < 3) ∧
        ∃ sc, (n, sc) ∈ props ∧ generateExampleFromSchema (some sc) cd = some v)
    ∧ (∀ s d r, d ≤ 3 → s.example? = none → s.default? = none →
        s.type? ∉ ([some "string", some "number", some "integer", some "boolean",
          some "array", some "object"] : List (Option String)) →
        s.ref? = some r →
        generateExampleFromSchema (some s) d = some (.str ("# See " ++ r)))
    ∧ (∀ s d s1 rest, d ≤ 3 → s.example? = none → s.default? = none →
        s.type? ∉ ([some "string", some "number", some "integer", some "boolean",
          some "array", some "object"] : List (Option String)) →
        s.ref? = none → s.oneOf? = some (s1 :: rest) →
        generateExampleFromSchema (some s) d =
          generateExampleFromSchema (some s1) (d + 1))
    ∧ (∀ s d s1 rest, d ≤ 3 → s.example? = none → s.default? = none →
        s.type? ∉ ([some "string", some "number", some "integer", some "boolean",
          some "array", some "object"] : List (Option String)) →
        s.ref? = none → (s.oneOf? = none ∨ s.oneOf? = some []) →
        s.anyOf? = some (s1 :: rest) →
        generateExampleFromSchema (some s) d =
          generateExampleFromSchema (some s1) (d + 1)) := by
  refine ⟨?_, ?_, ?_, ?_, ?_, ?_, ?_, ?_, ?_, ?_, ?_, ?_, ?_, ?_, ?_, ?_, ?_, ?_,
    ?_, ?_, ?_, ?_, ?_⟩
  · intro d
    rw [generateExampleFromSchema.eq_def]
  · intro s d hd
    rw [generateExampleFromSchema.eq_def]
    dsimp only
    rw [if_pos hd]
  · intro s d v hd hex
    rw [generateExampleFromSchema.eq_def]
    dsimp only
    rw [if_neg (by omega), hex]
  · intro s d v hd hex hdef
    rw [generateExampleFromSchema.eq_def]
    dsimp only
    rw [if_neg (by omega), hex]
    dsimp only
    rw [hdef]
  · intro s d es hd hex hdef hty hen
    rw [generateExampleFromSchema.eq_def]
    dsimp only
    rw [if_neg (by omega), hex]
    dsimp only
    rw [hdef]
    dsimp only
    rw [hty, if_pos rfl, hen]
  · intro s d hd hex hdef hty hen hfmt
    rw [generateExampleFromSchema.eq_def]
    dsimp only
    rw [if_neg (by omega), hex]
    dsimp only
    rw [hdef]
    dsimp only
    rw [hty, if_pos rfl, hen]
    dsimp only
    rw [if_pos hfmt]
  · intro s d hd hex hdef hty hen hfmt
    rw [generateExampleFromSchema.eq_def]
    dsimp only
    rw [if_neg (by omega), hex]
    dsimp only
    rw [hdef]
    dsimp only
    rw [hty, if_pos rfl, hen]
    dsimp only
    rw [hfmt]
    simp
  · intro s d hd hex hdef hty hen hfmt
    rw [generateExampleFromSchema.eq_def]
    dsimp only
    rw [if_neg (by omega), hex]
    dsimp only
    rw [hdef]
    dsimp only
    rw [hty, if_pos rfl, hen]
    dsimp only
    rw [hfmt]
    simp
  · intro s d hd hex hdef hty hen hfmt
    rw [generateExampleFromSchema.eq_def]
    dsimp only
    rw [if_neg (by omega), hex]
    dsimp only
    rw [hdef]
    dsimp only
    rw [hty, if_pos rfl, hen]
    dsimp only
    rw [hfmt]
    simp
  · intro s d p hd hex hdef hty hen hfmt hpat
    rw [generateExampleFromSchema.eq_def]
    dsimp only
    rw [if_neg (by omega), hex]
    dsimp only
    rw [hdef]
    dsimp only
    rw [hty, if_pos rfl, hen]
    dsimp only
    rw [hfmt]
    simp only [reduceCtorEq, or_self, if_false, if_neg (by decide : ¬(none = some "email"))]
    rw [hpat]
    dsimp only
    split <;> rfl
  · intro s d hd hex hdef hty hen hfmt hpat
    rw [generateExampleFromSchema.eq_def]
    dsimp only
    rw [if_neg (by omega), hex]
    dsimp only
    rw [hdef]
    dsimp only
    rw [hty, if_pos rfl, hen]
    dsimp only
    rw [hfmt]
    simp only [reduceCtorEq, or_self, if_false, if_neg (by decide : ¬(none = some "email"))]
    rw [hpat]
  · intro s d m hd hex hdef hty hmin
    rcases hty with hty | hty <;>
    · rw [generateExampleFromSchema.eq_def]
      dsimp only
      rw [if_neg (by omega), hex]
      dsimp only
      rw [hdef]
      dsimp only
      rw [hty]
      rw [if_neg (by decide), if_pos (by decide), hmin]
  · intro s d m hd hex hdef hty hmin hmax
    rcases hty with hty | hty <;>
    · rw [generateExampleFromSchema.eq_def]
      dsimp only
      rw [if_neg (by omega), hex]
      dsimp only
      rw [hdef]
      dsimp only
      rw [hty]
      rw [if_neg (by decide), if_pos (by decide), hmin]
      dsimp only
      rw [hmax]
  · intro s d hd hex hdef hty hmin hmax
    rcases hty with hty | hty <;>
    · rw [generateExampleFromSchema.eq_def]
      dsimp only
      rw [if_neg (by omega), hex]
      dsimp only
      rw [hdef]
      dsimp only
      rw [hty]
      rw [if_neg (by decide), if_pos (by decide), hmin]
      dsimp only
      rw [hmax]
  · intro s d hd hex hdef hty
    rw [generateExampleFromSchema.eq_def]
    dsimp only
    rw [if_neg (by omega), hex]
    dsimp only
    rw [hdef]
    dsimp only
    rw [hty]
    rw [if_neg (by decide), if_neg (by decide), if_pos (by decide)]
  · intro s d it hd hex hdef hty hit
    rw [generateExampleFromSchema.eq_def]
    dsimp only
    rw [if_neg (by omega), hex]
    dsimp only
    rw [hdef]
    dsimp only
    rw [hty]
    rw [if_neg (by decide), if_neg (by decide), if_neg (by decide), if_pos (by decide), hit]
    dsimp only
    cases generateExampleFromSchema (some it) (d + 1) <;> rfl
  · intro s d hd hex hdef hty hit
    rw [generateExampleFromSchema.eq_def]
    dsimp only
    rw [if_neg (by omega), hex]
    dsimp only
    rw [hdef]
    dsimp only
    rw [hty]
    rw [if_neg (by decide), if_neg (by decide), if_neg (by decide), if_pos (by decide), hit]
  · intro s d props hd hex hdef hty hprops
    rw [generateExampleFromSchema.eq_def]
    dsimp only
    rw [if_neg (by omega), hex]
    dsimp only
    rw [hdef]
    dsimp only
    rw [hty]
    rw [if_neg (by decide), if_neg (by decide), if_neg (by decide), if_neg (by decide),
      if_pos (by decide), hprops]
  · intro s d hd hex hdef hty hprops
    rw [generateExampleFromSchema.eq_def]
    dsimp only
    rw [if_neg (by omega), hex]
    dsimp only
    rw [hdef]
    dsimp only
    rw [hty]
    rw [if_neg (by decide), if_neg (by decide), if_neg (by decide), if_neg (by decide),
      if_pos (by decide), hprops]
  · intro props req cd
    induction props with
    | nil =>
      intro n v h
      rw [genObjectProps.eq_def] at h
      simp at h
    | cons p rest ih =>
      obtain ⟨name, sc⟩ := p
      intro n v h
      rw [genObjectProps.eq_def] at h
      dsimp only at h
      by_cases hc : name ∈ req ∨ cd < 3
      · rw [if_pos hc] at h
        cases hg : generateExampleFromSchema (some sc) cd with
        | some w =>
          rw [hg] at h
          dsimp only at h
          rcases List.mem_cons.mp h with heq | hmem
          · rw [Prod.mk.injEq] at heq
            obtain ⟨hn, hv⟩ := heq
            subst hn
            subst hv
            exact ⟨by simp, hc, sc, by simp, hg⟩
          · obtain ⟨ha, hb, sc', hm, he⟩ := ih n v hmem
            exact ⟨by simp [ha], hb, sc', List.mem_cons.mpr (Or.inr hm), he⟩
        | none =>
          rw [hg] at h
          dsimp only at h
          obtain ⟨ha, hb, sc', hm, he⟩ := ih n v h
          exact ⟨by simp [ha], hb, sc', List.mem_cons.mpr (Or.inr hm), he⟩
      · rw [if_neg hc] at h
        obtain ⟨ha, hb, sc', hm, he⟩ := ih n v h
        exact ⟨by simp [ha], hb, sc', List.mem_cons.mpr (Or.inr hm), he⟩
  · intro s d r hd hex hdef htype href
    have h1 : s.type? ≠ some "string" := fun h => htype (by simp [h])
    have h2 : ¬(s.type? = some "number" ∨ s.type? = some "integer") := by
      rintro (h | h) <;> exact htype (by simp [h])
    have h4 : s.type? ≠ some "boolean" := fun h => htype (by simp [h])
    have h5 : s.type? ≠ some "array" := fun h => htype (by simp [h])
    have h6 : s.type? ≠ some "object" := fun h => htype (by simp [h])
    rw [generateExampleFromSchema.eq_def]
    dsimp only
    rw [if_neg (by omega), hex]
    dsimp only
    rw [hdef]
    dsimp only
    rw [if_neg h1, if_neg h2, if_neg h4, if_neg h5, if_neg h6, href]
  · intro s d s1 rest hd hex hdef htype href hone
    have h1 : s.type? ≠ some "string" := fun h => htype (by simp [h])
    have h2 : ¬(s.type? = some "number" ∨ s.type? = some "integer") := by
      rintro (h | h) <;> exact htype (by simp [h])
    have h4 : s.type? ≠ some "boolean" := fun h => htype (by simp [h])
    have h5 : s.type? ≠ some "array" := fun h => htype (by simp [h])
    have h6 : s.type? ≠ some "object" := fun h => htype (by simp [h])
    rw [generateExampleFromSchema.eq_def]
    dsimp only
    rw [if_neg (by omega), hex]
    dsimp only
    rw [hdef]
    dsimp only
    rw [if_neg h1, if_neg h2, if_neg h4, if_neg h5, if_neg h6, href]
    dsimp only
    rw [hone]
  · intro s d s1 rest hd hex hdef htype href hone hany
    have h1 : s.type? ≠ some "string" := fun h => htype (by simp [h])
    have h2 : ¬(s.type? = some "number" ∨ s.type? = some "integer") := by
      rintro (h | h) <;> exact htype (by simp [h])
    have h4 : s.type? ≠ some "boolean" := fun h => htype (by simp [h])
    have h5 : s.type? ≠ some "array" := fun h => htype (by simp [h])
    have h6 : s.type? ≠ some "object" := fun h => htype (by simp [h])
    rw [generateExampleFromSchema.eq_def]
    dsimp only
    rw [if_neg (by omega), hex]
    dsimp only
    rw [hdef]
    dsimp only
    rw [if_neg h1, if_neg h2, if_neg h4, if_neg h5, if_neg h6, href]
    dsimp only
    rcases hone with hone | hone <;>
    · rw [hone]
      dsimp only
      rw [hany]

/-- Counterexample for C8 as stated: a string schema whose pattern contains
the class backslash-d synthesizes the version-like literal "1.0.0", not the
generic placeholder the claim prescribes for patterned strings. -/
theorem claim_C8_counterexample :
    generateExampleFromSchema
      (some (Schema.mk none none (some "string") none none (some "\\d+") none none
        none none none none none none none none none none none none none)) 0
      = some (Value.str "1.0.0") ∧
    Value.str "1.0.0" ≠ Value.str "example-string" := by
  constructor
  · rw [generateExampleFromSchema.eq_def]
    simp [Schema.example?, Schema.default?, Schema.type?, Schema.enum?, Schema.format?,
      Schema.pattern?, strIncludes, listIsInfixB, strStartsWith]
  · intro h
    injection h with h'
    exact absurd h' (by decide)

/-- Witness for C8: the example-precedence clause and the uri-format clause
of the amended theorem, applied to concrete schema nodes. -/
theorem claim_C8_example_synthesis_witness :
    generateExampleFromSchema
      (some (Schema.mk (some (Value.num 7)) none none none none none none none
        none none none none none none none none none none none none none)) 1
      = some (Value.num 7) ∧
    generateExampleFromSchema
      (some (Schema.mk none none (some "string") none (some "uri") none none none
        none none none none none none none none none none none none none)) 0
      = some (Value.str "https://example.com") := by
  constructor
  · exact claim_C8_example_synthesis.2.2.1 _ 1 (Value.num 7) (by omega) rfl
  · exact claim_C8_example_synthesis.2.2.2.2.2.1 _ 0 (by omega) rfl rfl rfl rfl (Or.inl rfl)

/-! ## Theorems: rendering degradation (C9) -/

/-- A missing schema synthesizes no example value at any depth. -/
theorem generateExampleFromSchema_none (d : Nat) :
    generateExampleFromSchema none d = none := by
  rw [generateExampleFromSchema.eq_def]

/-- String concatenation reassociates. -/
theorem strAppend_assoc (a b c : String) : a ++ b ++ c = a ++ (b ++ c) :=
  String.ext (by simp)

/-- The empty string is a right identity of concatenation. -/
theorem strAppend_nil (a : String) : a ++ "" = a :=
  String.ext (by simp)

/-- The empty string is a left identity of concatenation. -/
theorem strNil_append (a : String) : "" ++ a = a :=
  String.ext (by simp)

/-- C9: rendering degrades on missing optional inputs instead of failing:
the metadata, schema, composes and source-files sections are each empty when
their own input is absent; version navigation is empty with at most one
known version and otherwise opens with its heading; and a record with no
canon, type, metadata, includes, schema or info, rendered with no source
files and no derived-types table, yields exactly the front-matter, the
identity header (badge, publisher, `N/A` type), the version navigation, the
bare type-information heading, and the canned example block. -/
theorem claim_C9_rendering_degradation :
    (generateMetadataSection none = "")
    ∧ (∀ dump jsonDump, generateSchemaSection dump jsonDump none = "")
    ∧ (formatIncludes none true = "" ∧ formatIncludes none false = "")
    ∧ (∀ si, generateSourceFilesSection [] si = "")
    ∧ (∀ si allVersions, allVersions.length ≤ 1 →
        generateVersionNavigation si allVersions = "")
    ∧ (∀ si allVersions, 1 < allVersions.length →
        ∃ t, generateVersionNavigation si allVersions = "## Version Navigation\n\n" ++ t)
    ∧ (∀ (dump jsonDump : Option Value → String) (si : RSpecInfo) (ctx : RContext),
        ctx.sourceFiles = [] → ctx.derivedTypes = [] →
        generateMarkdown dump jsonDump ⟨none, none, none, none, none, none⟩ si ctx =
          "---\nid: " ++ si.version ++ "\ntitle: " ++ si.specName ++ " v" ++ si.version
            ++ "\nsidebar_label: v" ++ si.version
            ++ (if isLatestMark si.version ctx.allVersions then " (latest)" else "")
            ++ "\nhide_table_of_contents: false\ncustom_edit_url: null\n---"
            ++ "\n\n" ++ "\n# " ++ si.specName ++ "\n\n"
            ++ generateVersionBadge si.version (isLatestMark si.version ctx.allVersions)
            ++ "\n\n**Publisher:** " ++ si.publisher ++ "  \n**Type:** " ++ "N/A" ++ "  \n"
            ++ "\n\n" ++ "\n"
            ++ "\n\n" ++ generateVersionNavigation si ctx.allVersions
            ++ "\n\n" ++ "## Type Information\n\n"
            ++ (if si.specName = "type" then
                  ":::info Meta-Type\nThis is the foundational meta-type from which all other Canon Protocol types derive. It defines the structure and validation rules for creating new types.\n:::\n\n"
                else "")
            ++ "\n\n" ++ "\n\n"
            ++ "\n\n" ++ "## Example Usage\n\n" ++ "### Complete Example\n\n"
            ++ "```yaml\ncanon: \"" ++ "1.0" ++ "\"\n" ++ "```\n"
            ++ "\n\n" ++ "\n") := by
  refine ⟨?_, ?_, ⟨rfl, rfl⟩, ?_, ?_, ?_, ?_⟩
  · rfl
  · intro dump jsonDump
    rfl
  · intro si
    rfl
  · intro si allVersions h
    unfold generateVersionNavigation
    rw [if_pos h]
  · intro si allVersions h
    unfold generateVersionNavigation
    rw [if_neg (by omega)]
    rw [show ("## Version Navigation\n\n<div class=\"version-nav\">\n\n**Available versions:** " : String)
        = "## Version Navigation\n\n" ++ "<div class=\"version-nav\">\n\n**Available versions:** " from by decide]
    simp only [strAppend_assoc]
    exact ⟨_, rfl⟩
  · intro dump jsonDump si ctx hsf hdt
    obtain ⟨av, th, sf, dt⟩ := ctx
    dsimp only at hsf hdt
    subst hsf
    subst hdt
    have hex : generateExamplesSection dump ⟨none, none, none, none, none, none⟩ =
        "## Example Usage\n\n" ++ "### Complete Example\n\n"
          ++ "```yaml\ncanon: \"" ++ "1.0" ++ "\"\n" ++ "```\n" := by
      unfold generateExamplesSection
      dsimp only
      rw [generateExampleFromSchema_none]
      dsimp only [presentStr]
      decide
    unfold generateMarkdown
    simp only [hex]
    dsimp only
    simp only [Option.none_bind]
    simp only [show ∀ fb, jsOrElse none fb = fb from fun _ => rfl]
    simp only [show formatTypeReference none true = "N/A" from rfl,
      show generateMetadataSection none = "" from rfl,
      show (∀ d j, generateSchemaSection d j none = "") from fun _ _ => rfl,
      show (∀ s, generateSourceFilesSection [] s = "") from fun _ => rfl]
    rw [show generateTypeHierarchySection ⟨none, none, none, none, none, none⟩ si
        ⟨av, th, [], []⟩ = "## Type Information\n\n"
          ++ (if si.specName = "type" then
                ":::info Meta-Type\nThis is the foundational meta-type from which all other Canon Protocol types derive. It defines the structure and validation rules for creating new types.\n:::\n\n"
              else "") ++ "" ++ "" from rfl]
    simp only [strAppend_assoc, strAppend_nil, strNil_append]

/-- Witness for C9: the navigation clauses and the bare-record document
equality of the theorem, applied at concrete inputs. -/
theorem claim_C9_rendering_degradation_witness :
    (generateVersionNavigation ⟨"canon-protocol.org", "widget", "1.0.0"⟩ ["1.0.0"] = "")
    ∧ (∃ t, generateVersionNavigation ⟨"canon-protocol.org", "widget", "1.0.0"⟩
        ["1.0.0", "0.9.0"] = "## Version Navigation\n\n" ++ t)
    ∧ generateMarkdown (fun _ => "") (fun _ => "") ⟨none, none, none, none, none, none⟩
        ⟨"canon-protocol.org", "widget", "1.0.0"⟩ ⟨["1.0.0"], [], [], []⟩ =
      "---\nid: " ++ "1.0.0" ++ "\ntitle: " ++ "widget" ++ " v" ++ "1.0.0"
        ++ "\nsidebar_label: v" ++ "1.0.0"
        ++ (if isLatestMark "1.0.0" ["1.0.0"] then " (latest)" else "")
        ++ "\nhide_table_of_contents: false\ncustom_edit_url: null\n---"
        ++ "\n\n" ++ "\n# " ++ "widget" ++ "\n\n"
        ++ generateVersionBadge "1.0.0" (isLatestMark "1.0.0" ["1.0.0"])
        ++ "\n\n**Publisher:** " ++ "canon-protocol.org" ++ "  \n**Type:** " ++ "N/A" ++ "  \n"
        ++ "\n\n" ++ "\n"
        ++ "\n\n" ++ generateVersionNavigation ⟨"canon-protocol.org", "widget", "1.0.0"⟩ ["1.0.0"]
        ++ "\n\n" ++ "## Type Information\n\n"
        ++ (if ("widget" : String) = "type" then
              ":::info Meta-Type\nThis is the foundational meta-type from which all other Canon Protocol types derive. It defines the structure and validation rules for creating new types.\n:::\n\n"
            else "")
        ++ "\n\n" ++ "\n\n"
        ++ "\n\n" ++ "## Example Usage\n\n" ++ "### Complete Example\n\n"
        ++ "```yaml\ncanon: \"" ++ "1.0" ++ "\"\n" ++ "```\n"
        ++ "\n\n" ++ "\n" := by
  refine ⟨?_, ?_, ?_⟩
  · exact claim_C9_rendering_degradation.2.2.2.2.1 _ _ (by decide)
  · exact claim_C9_rendering_degradation.2.2.2.2.2.1 _ _ (by decide)
  · exact claim_C9_rendering_degradation.2.2.2.2.2.2 _ _ _ _ rfl rfl

/-! ## Theorems: the index page (C3) -/

set_option maxRecDepth 200000 in
/-- Counterexample for C3 as stated: processing a group named `widget` whose
only version is `9.8.7` produces an index document that mentions neither the
group nor the version, so the index summarizes no group and links to no
version. -/
theorem claim_C3_counterexample :
    strIncludes (generateIndexPage [("widget", [⟨"9.8.7", none⟩])]) "9.8.7" = false
    ∧ strIncludes (generateIndexPage [("widget", [⟨"9.8.7", none⟩])]) "widget" = false := by
  constructor
  · decide
  · decide

/-- C3 (amended): the generated index document is one fixed static overview
page (front-matter `id: index`, `title: Canon Protocol`), identical for every
collection of processed records; the per-group summary the spec describes is
not produced by the current script. -/
theorem claim_C3_index_static :
    (∀ sbt : List (String × List IdxSpec), generateIndexPage sbt = indexPageMarkdown)
    ∧ strStartsWith indexPageMarkdown
        "---\nid: index\ntitle: Canon Protocol\nsidebar_label: Overview\nsidebar_position: 1\ncustom_edit_url: null\n---" = true := by
  exact ⟨fun _ => rfl, by decide⟩

end CanonSite
